import Mathlib

/-!
# PCA9541 / PCA9641 bus-master arbitration (i2c-mux-pca9641.c)

Shallow embedding of the arbitration logic of the driver
`platform/centec-arm64/sonic-platform-modules-ragile/common/modules/i2c-mux-pca9641.c`.

* C `int` values are `Int`; `&` and `|` on `int` act on the 32-bit
  two's-complement representation, `~x` is `-x - 1`.
* A `u8` argument is the `int` reduced modulo 256.
* `unsigned long` (jiffies, deadlines) is a `Nat` reduced modulo `2 ^ 64`.
* The chip, the i2c transport and the clock are an explicit environment
  `Env σ` over a world state `σ`; every driver function threads the world
  state and returns the list of events it performed.
* Loops that poll the hardware take a fuel argument and return `none` when
  the fuel is exhausted.
-/

namespace Pca9641

/-! ## C integer operations -/

/-- Bit pattern of a C `int`: its value modulo `2 ^ 32`. -/
def toU32 (x : Int) : Nat := (x % 4294967296).toNat

/-- The C `int` with a given 32-bit pattern. -/
def ofU32 (n : Nat) : Int := if n < 2147483648 then (n : Int) else (n : Int) - 4294967296

/-- C `a & b` on `int`. -/
instance : AndOp Int := ⟨fun a b => ofU32 (toU32 a &&& toU32 b)⟩

/-- C `a | b` on `int`. -/
instance : OrOp Int := ⟨fun a b => ofU32 (toU32 a ||| toU32 b)⟩

/-- Conversion of an `int` to a `u8` function argument. -/
def u8 (x : Int) : Nat := (x % 256).toNat

/-- Number of values of an `unsigned long` (64-bit kernel). -/
abbrev ULONG : Nat := 2 ^ 64

/-! ## Register map (lines 44-91) -/

abbrev PCA9541_CONTROL : Nat := 0x01
abbrev PCA9541_ISTAT : Nat := 0x02

abbrev PCA9541_CTL_MYBUS : Int := 1
abbrev PCA9541_CTL_NMYBUS : Int := 2
abbrev PCA9541_CTL_BUSON : Int := 4
abbrev PCA9541_CTL_NBUSON : Int := 8
abbrev PCA9541_CTL_BUSINIT : Int := 16
abbrev PCA9541_CTL_TESTON : Int := 64
abbrev PCA9541_CTL_NTESTON : Int := 128
abbrev PCA9541_ISTAT_NMYTEST : Int := 128

abbrev PCA9641_ID : Nat := 0x00
abbrev PCA9641_ID_MAGIC : Int := 0x38
abbrev PCA9641_CONTROL : Nat := 0x01
abbrev PCA9641_STATUS : Nat := 0x02
abbrev PCA9641_CTL_LOCK_REQ : Int := 1
abbrev PCA9641_CTL_LOCK_GRANT : Int := 2
abbrev PCA9641_CTL_BUS_CONNECT : Int := 4
abbrev PCA9641_STS_OTHER_LOCK : Int := 1

abbrev BUSON : Int := PCA9541_CTL_BUSON ||| PCA9541_CTL_NBUSON
abbrev MYBUS : Int := PCA9541_CTL_MYBUS ||| PCA9541_CTL_NMYBUS

/-- Macro `mybus(x)`: `(!((x) & MYBUS) || ((x) & MYBUS) == MYBUS)`. -/
def mybus (x : Int) : Bool := (x &&& MYBUS == 0) || (x &&& MYBUS == MYBUS)

/-- Macro `busoff(x)`: `(!((x) & BUSON) || ((x) & BUSON) == BUSON)`. -/
def busoff (x : Int) : Bool := (x &&& BUSON == 0) || (x &&& BUSON == BUSON)

/-- Macro `other_lock(x)`: `((x) & PCA9641_STS_OTHER_LOCK)`, as a truth value. -/
def other_lock (x : Int) : Bool := x &&& PCA9641_STS_OTHER_LOCK != 0

/-- Macro `lock_grant(x)`: `((x) & PCA9641_CTL_LOCK_GRANT)`, as a truth value. -/
def lock_grant (x : Int) : Bool := x &&& PCA9641_CTL_LOCK_GRANT != 0

/-- Macro `BUSOFF(x, y)`: no lock grant in `x` and no other-lock in `y`. -/
def BUSOFF (x y : Int) : Bool :=
  (x &&& PCA9641_CTL_LOCK_GRANT == 0) && (y &&& PCA9641_STS_OTHER_LOCK == 0)

abbrev PCA9641_RETRY_TIME : Nat := 8

/-- Errno values used by the driver (returned negated). -/
abbrev EIO : Int := 5
abbrev ETIMEDOUT : Int := 110

/-! ## Timing constants (lines 123-129); `HZ` is the kernel tick rate -/

/-- Macro `ARB_TIMEOUT`: `(HZ / 8)`, "125 ms until forcing bus ownership". -/
def ARB_TIMEOUT (HZ : Nat) : Nat := HZ / 8

/-- Macro `ARB2_TIMEOUT`: `(HZ / 4)`, "250 ms until acquisition failure". -/
def ARB2_TIMEOUT (HZ : Nat) : Nat := HZ / 4

abbrev SELECT_DELAY_SHORT : Nat := 50
abbrev SELECT_DELAY_LONG : Nat := 1000

/-! ## Kernel jiffies comparisons (linux/jiffies.h), wrap-around safe -/

/-- Kernel `time_after_eq(a, b)`: `((long)((a) - (b)) >= 0)` on `unsigned long`. -/
def time_after_eq (a b : Nat) : Bool := (a % ULONG + ULONG - b % ULONG) % ULONG < 2 ^ 63

/-- Kernel `time_is_before_eq_jiffies(a)`: `time_after_eq(jiffies, a)`. -/
def time_is_before_eq_jiffies (jiffies a : Nat) : Bool := time_after_eq jiffies a

/-- Kernel `time_is_after_eq_jiffies(a)`: `time_before_eq(jiffies, a)`, that is
`time_after_eq(a, jiffies)`. -/
def time_is_after_eq_jiffies (jiffies a : Nat) : Bool := time_after_eq a jiffies

/-! ## Driver state -/

/-- Fields of `struct pca9541` that the arbitration uses. -/
structure pca9541 where
  select_timeout : Nat
  arb_timeout : Nat
deriving DecidableEq, Repr

/-- Fields of `struct i2c_muxs_struct_flag` (the mutex is never taken). -/
structure i2c_mux_flag where
  nr : Int
  name : String
  flag : Int
deriving DecidableEq, Repr

/-- Static initialiser `pca_flag = { .flag = -1 }`; other members are zero. -/
def pca_flag : i2c_mux_flag := { nr := 0, name := "", flag := -1 }

/-! ## Environment: register transport, clock and sleeps -/

/-- What the driver observes of the outside world. `reg_read` and `reg_write`
stand for `pca9541_reg_read` and `pca9541_reg_write` (a value `0..255` or a
negative errno, resp. the transfer status); `jiffies` is the kernel tick
counter; `udelay` and `msleep` are the two delay primitives. -/
structure Env (σ : Type) where
  reg_read : σ → Nat → Int × σ
  reg_write : σ → Nat → Nat → Int × σ
  jiffies : σ → Nat
  udelay : Nat → σ → σ
  msleep : Nat → σ → σ

/-- Observable actions of the driver, in program order. The two `check`
events record an evaluation of a deadline comparison and its outcome. -/
inductive Event where
  | read (reg : Nat) (ret : Int)
  | write (reg : Nat) (val : Nat) (ret : Int)
  | udelay (us : Nat)
  | msleep (ms : Nat)
  | arb_check (expired : Bool)
  | timeout_check (pending : Bool)
deriving DecidableEq, Repr

/-- Outcome of a driver function: C return value, updated `struct pca9541`,
world state afterwards and the events performed. -/
structure Step (σ : Type) where
  ret : Int
  data : pca9541
  st : σ
  trace : List Event
deriving DecidableEq

/-! ## SimpleBit variant (PCA9541) -/

/-- Table `pca9541_control[16]`, "Control commands per PCA9541 datasheet". -/
def pca9541_control : List Int := [4, 0, 1, 5, 4, 4, 5, 5, 0, 0, 1, 1, 0, 4, 5, 1]

/-- Array read `pca9541_control[i]`. -/
def pca9541_control_at (i : Int) : Int := pca9541_control.getD i.toNat 0

/-- Function `pca9541_release_bus` (lines 237-245). -/
def pca9541_release_bus {σ : Type} (env : Env σ) (s : σ) : σ × List Event :=
  let r := env.reg_read s PCA9541_CONTROL
  let reg := r.1
  if 0 ≤ reg && !busoff reg && mybus reg then
    let v := u8 ((reg &&& PCA9541_CTL_NBUSON) >>> 1)
    let w := env.reg_write r.2 PCA9541_CONTROL v
    (w.2, [Event.read PCA9541_CONTROL reg, Event.write PCA9541_CONTROL v w.1])
  else
    (r.2, [Event.read PCA9541_CONTROL reg])

/-- Function `pca9541_arbitrate` (lines 284-353). Returns `<0` on error,
`0` when the bus is not acquired, `1` when it is. -/
def pca9541_arbitrate {σ : Type} (env : Env σ) (data : pca9541) (s : σ) : Step σ :=
  let r := env.reg_read s PCA9541_CONTROL
  let reg := r.1
  let e0 := Event.read PCA9541_CONTROL reg
  if reg < 0 then
    ⟨reg, data, r.2, [e0]⟩
  else if busoff reg then
    let ri := env.reg_read r.2 PCA9541_ISTAT
    let istat := ri.1
    let e1 := Event.read PCA9541_ISTAT istat
    let v := u8 (pca9541_control_at (reg &&& 0x0f) ||| PCA9541_CTL_NTESTON)
    if istat &&& PCA9541_ISTAT_NMYTEST == 0 then
      let w := env.reg_write ri.2 PCA9541_CONTROL v
      ⟨0, { data with select_timeout := SELECT_DELAY_SHORT }, w.2,
        [e0, e1, Event.write PCA9541_CONTROL v w.1]⟩
    else if time_is_before_eq_jiffies (env.jiffies ri.2) data.arb_timeout then
      let w := env.reg_write ri.2 PCA9541_CONTROL v
      ⟨0, { data with select_timeout := SELECT_DELAY_SHORT }, w.2,
        [e0, e1, Event.arb_check true, Event.write PCA9541_CONTROL v w.1]⟩
    else
      ⟨0, { data with select_timeout := SELECT_DELAY_LONG * 2 }, ri.2,
        [e0, e1, Event.arb_check false]⟩
  else if mybus reg then
    if reg &&& (PCA9541_CTL_NTESTON ||| PCA9541_CTL_BUSINIT) != 0 then
      let v := u8 (reg &&& ~~~(PCA9541_CTL_NTESTON ||| PCA9541_CTL_BUSINIT))
      let w := env.reg_write r.2 PCA9541_CONTROL v
      ⟨1, data, w.2, [e0, Event.write PCA9541_CONTROL v w.1]⟩
    else
      ⟨1, data, r.2, [e0]⟩
  else
    let data1 := { data with select_timeout := SELECT_DELAY_LONG }
    if time_is_before_eq_jiffies (env.jiffies r.2) data.arb_timeout then
      let v := u8 (pca9541_control_at (reg &&& 0x0f) ||| PCA9541_CTL_BUSINIT
                    ||| PCA9541_CTL_NTESTON)
      let w := env.reg_write r.2 PCA9541_CONTROL v
      ⟨0, data1, w.2, [e0, Event.arb_check true, Event.write PCA9541_CONTROL v w.1]⟩
    else if reg &&& PCA9541_CTL_NTESTON == 0 then
      let v := u8 (reg ||| PCA9541_CTL_NTESTON)
      let w := env.reg_write r.2 PCA9541_CONTROL v
      ⟨0, data1, w.2, [e0, Event.arb_check false, Event.write PCA9541_CONTROL v w.1]⟩
    else
      ⟨0, data1, r.2, [e0, Event.arb_check false]⟩

/-- The delay between two arbitration steps (lines 371-374):
`udelay(select_timeout)` for the short delay, `msleep(select_timeout / 1000)`
otherwise. Returns the world after the delay and the event. -/
def select_delay {σ : Type} (env : Env σ) (data : pca9541) (s : σ) : σ × Event :=
  if data.select_timeout = SELECT_DELAY_SHORT then
    (env.udelay data.select_timeout s, Event.udelay data.select_timeout)
  else
    (env.msleep (data.select_timeout / 1000) s, Event.msleep (data.select_timeout / 1000))

/-- The `do { ... } while (time_is_after_eq_jiffies(timeout))` loop of
`pca9541_select_chan` followed by `return -ETIMEDOUT` (lines 366-377). -/
def pca9541_select_loop {σ : Type} (env : Env σ) (timeout : Nat) :
    Nat → pca9541 → σ → Option (Step σ)
  | 0, _, _ => none
  | fuel + 1, data, s =>
    let r := pca9541_arbitrate env data s
    if r.ret ≠ 0 then
      some ⟨if r.ret < 0 then r.ret else 0, r.data, r.st, r.trace⟩
    else
      let d := select_delay env r.data r.st
      if time_is_after_eq_jiffies (env.jiffies d.1) timeout then
        (pca9541_select_loop env timeout fuel r.data d.1).map fun o =>
          { o with trace := r.trace ++ [d.2, Event.timeout_check true] ++ o.trace }
      else
        some ⟨-ETIMEDOUT, r.data, d.1, r.trace ++ [d.2, Event.timeout_check false]⟩

/-- Function `pca9541_select_chan` (lines 355-378). -/
def pca9541_select_chan {σ : Type} (env : Env σ) (HZ fuel : Nat) (data : pca9541) (s : σ) :
    Option (Step σ) :=
  let timeout := (env.jiffies s + ARB2_TIMEOUT HZ) % ULONG
  let data1 := { data with arb_timeout := (env.jiffies s + ARB_TIMEOUT HZ) % ULONG }
  pca9541_select_loop env timeout fuel data1 s

/-- Function `pca9541_release_chan` (lines 380-386). -/
def pca9541_release_chan {σ : Type} (env : Env σ) (data : pca9541) (s : σ) : Step σ :=
  let r := pca9541_release_bus env s
  ⟨0, data, r.1, r.2⟩

/-! ## LockRequestGrant variant (PCA9641) -/

/-- Function `pca9641_release_bus` (lines 391-394): one write of `0x80`. -/
def pca9641_release_bus {σ : Type} (env : Env σ) (s : σ) : σ × List Event :=
  let w := env.reg_write s PCA9641_CONTROL 0x80
  (w.2, [Event.write PCA9641_CONTROL 0x80 w.1])

/-- Function `pca9641_arbitrate` (lines 404-461). Returns `<0` on error,
`0` when the bus is not acquired, `1` when it is. -/
def pca9641_arbitrate {σ : Type} (env : Env σ) (data : pca9541) (s : σ) : Step σ :=
  let rc := env.reg_read s PCA9641_CONTROL
  let reg_ctl := rc.1
  let e0 := Event.read PCA9641_CONTROL reg_ctl
  if reg_ctl < 0 then
    ⟨reg_ctl, data, rc.2, [e0]⟩
  else
    let rs := env.reg_read rc.2 PCA9641_STATUS
    let reg_sts := rs.1
    let e1 := Event.read PCA9641_STATUS reg_sts
    if BUSOFF reg_ctl reg_sts then
      let v1 := u8 (reg_ctl ||| PCA9641_CTL_LOCK_REQ)
      let w1 := env.reg_write rs.2 PCA9641_CONTROL v1
      let e2 := Event.write PCA9641_CONTROL v1 w1.1
      let rc2 := env.reg_read w1.2 PCA9641_CONTROL
      let reg_ctl2 := rc2.1
      let e3 := Event.read PCA9641_CONTROL reg_ctl2
      if lock_grant reg_ctl2 then
        let v2 := u8 (reg_ctl2 ||| (PCA9641_CTL_BUS_CONNECT ||| PCA9641_CTL_LOCK_REQ))
        let w2 := env.reg_write rc2.2 PCA9641_CONTROL v2
        ⟨1, { data with select_timeout := SELECT_DELAY_SHORT }, w2.2,
          [e0, e1, e2, e3, Event.write PCA9641_CONTROL v2 w2.1]⟩
      else
        ⟨0, { data with select_timeout := SELECT_DELAY_LONG * 2 }, rc2.2, [e0, e1, e2, e3]⟩
    else if lock_grant reg_ctl then
      let v := u8 (reg_ctl ||| (PCA9641_CTL_BUS_CONNECT ||| PCA9641_CTL_LOCK_REQ))
      let w := env.reg_write rs.2 PCA9641_CONTROL v
      ⟨1, data, w.2, [e0, e1, Event.write PCA9641_CONTROL v w.1]⟩
    else if other_lock reg_sts then
      let v := u8 (reg_ctl ||| PCA9641_CTL_LOCK_REQ)
      let w := env.reg_write rs.2 PCA9641_CONTROL v
      ⟨0, { data with select_timeout := SELECT_DELAY_LONG }, w.2,
        [e0, e1, Event.write PCA9641_CONTROL v w.1]⟩
    else
      ⟨0, data, rs.2, [e0, e1]⟩

/-- Outcome of one retry round of `pca9641_select_chan`: `returned` is true
when the round executed `return 0`, false when its deadline expired. -/
structure Round (σ : Type) where
  returned : Bool
  data : pca9541
  st : σ
  trace : List Event
deriving DecidableEq

/-- The inner `do { ... } while (time_is_after_eq_jiffies(timeout))` loop of
`pca9641_select_chan` (lines 474-483): one retry round. -/
def pca9641_round {σ : Type} (env : Env σ) (timeout : Nat) :
    Nat → pca9541 → σ → Option (Round σ)
  | 0, _, _ => none
  | fuel + 1, data, s =>
    let r := pca9641_arbitrate env data s
    if r.ret = 1 then
      some ⟨true, r.data, r.st, r.trace⟩
    else
      let d := select_delay env r.data r.st
      if time_is_after_eq_jiffies (env.jiffies d.1) timeout then
        (pca9641_round env timeout fuel r.data d.1).map fun o =>
          { o with trace := r.trace ++ [d.2, Event.timeout_check true] ++ o.trace }
      else
        some ⟨false, r.data, d.1, r.trace ++ [d.2, Event.timeout_check false]⟩

/-- The `for (result = 0; result < PCA9641_RETRY_TIME; result++)` loop of
`pca9641_select_chan` (lines 473-486) with `n` rounds still to run; every
round gets `fuel` steps. A round that expires re-arms `timeout`. -/
def pca9641_rounds {σ : Type} (env : Env σ) (HZ fuel : Nat) :
    Nat → Nat → pca9541 → σ → Option (Step σ)
  | 0, _, data, s => some ⟨-ETIMEDOUT, data, s, []⟩
  | n + 1, timeout, data, s =>
    match pca9641_round env timeout fuel data s with
    | none => none
    | some o =>
      if o.returned then
        some ⟨0, o.data, o.st, o.trace⟩
      else
        (pca9641_rounds env HZ fuel n ((env.jiffies o.st + ARB2_TIMEOUT HZ) % ULONG)
            o.data o.st).map fun q => { q with trace := o.trace ++ q.trace }

/-- Function `pca9641_select_chan` (lines 463-487). -/
def pca9641_select_chan {σ : Type} (env : Env σ) (HZ fuel : Nat) (data : pca9541) (s : σ) :
    Option (Step σ) :=
  let timeout := (env.jiffies s + ARB2_TIMEOUT HZ) % ULONG
  let data1 := { data with arb_timeout := (env.jiffies s + ARB_TIMEOUT HZ) % ULONG }
  pca9641_rounds env HZ fuel PCA9641_RETRY_TIME timeout data1 s

/-- Function `pca9641_release_chan` (lines 490-498); `flag` is the global
`pca_flag`. -/
def pca9641_release_chan {σ : Type} (env : Env σ) (flag : i2c_mux_flag) (data : pca9541)
    (s : σ) : Step σ :=
  if flag.flag ≠ 0 then
    let r := pca9641_release_bus env s
    ⟨0, data, r.1, r.2⟩
  else
    ⟨0, data, s, []⟩

/-! ## Scripted world for concrete runs -/

/-- World whose register transfers are scripted: `reads` and `writes` are the
results of the successive reads and writes (once a script is used up the
transfer yields its last-resort value), `clock` counts microseconds. -/
structure Script where
  reads : List Int
  writes : List Int
  clock : Nat
deriving DecidableEq, Repr

/-- Environment over `Script`. One jiffy is one microsecond (`HZ = 1000000`),
`udelay n` lasts `n` microseconds and `msleep n` lasts `1000 * n`. -/
def scriptEnv (dfltRead : Int) : Env Script where
  reg_read s _ := (s.reads.headD dfltRead, { s with reads := s.reads.tail })
  reg_write s _ _ := (s.writes.headD 0, { s with writes := s.writes.tail })
  jiffies s := s.clock % ULONG
  udelay n s := { s with clock := s.clock + n }
  msleep n s := { s with clock := s.clock + 1000 * n }

/-- SimpleBit chip with a quiet peer. `ctl` is the control register, `istat`
the status register, `clock` counts microseconds. -/
structure Chip where
  ctl : Nat
  istat : Nat
  clock : Nat
deriving DecidableEq, Repr

/-- Environment over `Chip`: the status register reads with bit 7 (`NMYTEST`)
clear; a control write leaves the peer's bits `NMYBUS` (bit 1) and `NBUSON`
(bit 3) as they are and stores every other bit as written; transfers succeed.
One jiffy is one microsecond (`HZ = 1000000`) and only the two delays advance
the clock. -/
def chipEnv : Env Chip where
  reg_read s r :=
    if r = PCA9541_CONTROL then (((s.ctl % 256 : Nat) : Int), s)
    else (((s.istat % 128 : Nat) : Int), s)
  reg_write s r v :=
    if r = PCA9541_CONTROL then
      (0, { s with ctl := (s.ctl % 256 &&& 0x0a) ||| (v % 256 &&& 0xf5) })
    else (0, s)
  jiffies s := s.clock % ULONG
  udelay n s := { s with clock := s.clock + n }
  msleep n s := { s with clock := s.clock + 1000 * n }

/-- The environment `env` with every register write reporting success (`0`);
the effect of the write on the world is unchanged. -/
def okWrites {σ : Type} (env : Env σ) : Env σ :=
  { env with reg_write := fun s r v => (0, (env.reg_write s r v).2) }

/-- An event without the status that a write reported. -/
def Event.forgetStatus : Event → Event
  | Event.write r v _ => Event.write r v 0
  | e => e

/-- What a call did, apart from the statuses its writes reported. -/
structure Obs (σ : Type) where
  ret : Int
  data : pca9541
  st : σ
  events : List Event

/-- Observation of an outcome. -/
def Step.obs {σ : Type} (o : Step σ) : Obs σ :=
  ⟨o.ret, o.data, o.st, o.trace.map Event.forgetStatus⟩

/-- Shape of the events of a call that ends in the owner branch: some earlier
events, then the control read of `C`, then at most the write that clears
`NTESTON` and `BUSINIT`. -/
def EndsOwned (trace : List Event) (C : Int) : Prop :=
  ∃ pre tail, trace = pre ++ Event.read PCA9541_CONTROL C :: tail ∧
    (tail = [] ∨ ∃ r, tail = [Event.write PCA9541_CONTROL
      (u8 (C &&& ~~~(PCA9541_CTL_NTESTON ||| PCA9541_CTL_BUSINIT))) r])

/-- Clock model in which time advances only by the delays of the driver:
`clock` counts microseconds, one jiffy is one microsecond (`HZ = 1000000`),
register transfers take no time, `udelay n` lasts `n` microseconds and
`msleep n` lasts `1000 * n`. -/
structure SleepClock {σ : Type} (env : Env σ) (clock : σ → Nat) : Prop where
  jiffies_eq : ∀ s, env.jiffies s = clock s % ULONG
  read_clock : ∀ s r, clock (env.reg_read s r).2 = clock s
  write_clock : ∀ s r v, clock (env.reg_write s r v).2 = clock s
  udelay_clock : ∀ n s, clock (env.udelay n s) = clock s + n
  msleep_clock : ∀ n s, clock (env.msleep n s) = clock s + 1000 * n

/-- Length in microseconds of the delay that `select_delay` performs. -/
def retry_delay_us (data : pca9541) : Nat :=
  if data.select_timeout = SELECT_DELAY_SHORT then data.select_timeout
  else 1000 * (data.select_timeout / 1000)

/-- World whose registers always read `c` and ignore writes; the state is the
clock in microseconds. -/
def heldEnv (c : Int) : Env Nat where
  reg_read s _ := (c, s)
  reg_write s _ _ := (0, s)
  jiffies s := s % ULONG
  udelay n s := s + n
  msleep n s := s + 1000 * n

/-- Outcomes of the give-up deadline comparisons of a call, in program order:
`true` when the loop went round, `false` when the deadline had expired. -/
def timeoutChecks (trace : List Event) : List Bool :=
  trace.filterMap fun e =>
    match e with
    | Event.timeout_check b => some b
    | _ => none

/-- The peer holds the lock until clock value `G`: every control read
succeeds, it shows `LOCK_GRANT` exactly from `G` on, and before `G` the status
register shows `OTHER_LOCK`. -/
structure PeerLockUntil {σ : Type} (env : Env σ) (clock : σ → Nat) (G : Nat) : Prop where
  ctl_ok : ∀ s, 0 ≤ (env.reg_read s PCA9641_CONTROL).1
  ctl_grant : ∀ s, lock_grant (env.reg_read s PCA9641_CONTROL).1 = true ↔ G ≤ clock s
  sts_lock : ∀ s, clock s < G → other_lock (env.reg_read s PCA9641_STATUS).1 = true

/-- The delays among the events of a call. -/
def delays (trace : List Event) : List Event :=
  trace.filter fun e =>
    match e with
    | Event.udelay _ => true
    | Event.msleep _ => true
    | _ => false

/-- Control register of the `Chip` world after a write of `v` over the value
`r`: the peer's bits `NMYBUS` and `NBUSON` of `r`, every other bit of `v`. -/
def chipStore (r v : Nat) : Nat := (r % 256 &&& 0x0a) ||| (v % 256 &&& 0xf5)

/-- The byte that the claim branch of `pca9541_arbitrate` writes after
reading `r`. -/
def claimByte (r : Nat) : Nat :=
  u8 (pca9541_control_at ((r : Int) &&& 0x0f) ||| PCA9541_CTL_NTESTON)

/-- The byte that the owner branch of `pca9541_arbitrate` writes after
reading `r` with a stray bit set. -/
def clearByte (r : Nat) : Nat :=
  u8 ((r : Int) &&& ~~~(PCA9541_CTL_NTESTON ||| PCA9541_CTL_BUSINIT))

/-- The byte that `pca9541_release_bus` writes after reading `r`. -/
def releaseByte (r : Nat) : Nat := u8 (((r : Int) &&& PCA9541_CTL_NBUSON) >>> 1)

/-! ## Release-permission flag (lines 93-112, 514-523) -/

/-- Function `pca9641_setmuxflag` (lines 105-112) on the global `pca_flag`:
returns the C return value and the new `pca_flag`. -/
def pca9641_setmuxflag (pf : i2c_mux_flag) (nr flag : Int) : Int × i2c_mux_flag :=
  (0, if pf.nr = nr then { pf with flag := flag } else pf)

/-- Function `pca9641_recordflag` (lines 514-523) on the global `pca_flag`;
`adap_nr` and `adap_name` are `adap->nr` and `adap->name`, the latter cut to
the 47 characters that fit `pca_flag.name`. -/
def pca9641_recordflag (pf : i2c_mux_flag) (adap_nr : Int) (adap_name : String) :
    Int × i2c_mux_flag :=
  if pf.flag ≠ -1 then (-1, pf)
  else (0, { pf with nr := adap_nr, name := adap_name.take 47 })

/-- Control nibble after a claim from the nibble `x`: the peer's bits `NMYBUS`
and `NBUSON` of `x`, the own bits as `pca9541_control[x]` sets them. -/
def claimed (x : Int) : Int := (x &&& 0x0a) ||| pca9541_control_at (x &&& 0x0f)

/-- State in which the polling loop of `pca9541_select_chan` begins its
`(k + 1)`-th arbitration step: the loop of lines 366-375 run for `k` full
iterations, each of which reported "not acquired" and found the give-up
deadline pending; `none` when the loop ends before that. -/
def pca9541_loop_state {σ : Type} (env : Env σ) (timeout : Nat) :
    Nat → pca9541 → σ → Option (pca9541 × σ)
  | 0, data, s => some (data, s)
  | k + 1, data, s =>
    let r := pca9541_arbitrate env data s
    if r.ret ≠ 0 then none
    else
      let d := select_delay env r.data r.st
      if time_is_after_eq_jiffies (env.jiffies d.1) timeout then
        pca9541_loop_state env timeout k r.data d.1
      else none

/-- Value of the kernel tick counter at clock value `c` (in microseconds) when
the counter advances `HZ` times per second. -/
def ticks (HZ c : Nat) : Nat := c * HZ / 1000000

/-- Clock model with tick rate `HZ` in which time advances only by the delays
of the driver: `clock` counts microseconds, `jiffies` is the tick counter
`ticks HZ` of the clock, register transfers take no time, `udelay n` lasts `n`
microseconds and `msleep n` lasts `1000 * n`. -/
structure TickClock {σ : Type} (env : Env σ) (clock : σ → Nat) (HZ : Nat) : Prop where
  jiffies_eq : ∀ s, env.jiffies s = ticks HZ (clock s) % ULONG
  read_clock : ∀ s r, clock (env.reg_read s r).2 = clock s
  write_clock : ∀ s r v, clock (env.reg_write s r v).2 = clock s
  udelay_clock : ∀ n s, clock (env.udelay n s) = clock s + n
  msleep_clock : ∀ n s, clock (env.msleep n s) = clock s + 1000 * n

/-- First clock value at which the tick counter has passed the give-up
deadline armed at clock value `c`, that is `ticks HZ c + ARB2_TIMEOUT HZ`. -/
def tickLimit (HZ c : Nat) : Nat :=
  ((ticks HZ c + ARB2_TIMEOUT HZ + 1) * 1000000 + HZ - 1) / HZ

/-- Clock value at which a retry round armed at clock value `c` and stepping
every millisecond ends: the first of `c + 1000`, `c + 2000`, ... that is not
below `tickLimit HZ c`. -/
def roundEnd (HZ c : Nat) : Nat := c + 1000 * ((tickLimit HZ c - c + 999) / 1000)

/-- Clock value at which `m` such retry rounds in a row end, the first armed at
clock value `c` and each of the others where the round before it ended. -/
def roundsEnd (HZ : Nat) : Nat → Nat → Nat
  | 0, c => c
  | m + 1, c => roundsEnd HZ m (roundEnd HZ c)

/-- Deadline comparisons of those `m` rounds: in each round one per
millisecond step, all but the last letting the round go on. -/
def roundsChecks (HZ : Nat) : Nat → Nat → List Bool
  | 0, _ => []
  | m + 1, c =>
    List.replicate ((roundEnd HZ c - c) / 1000 - 1) true ++ [false] ++
      roundsChecks HZ m (roundEnd HZ c)

/-- World with tick rate `HZ` whose registers always read `c` and ignore
writes; the state is the clock in microseconds. -/
def tickHeldEnv (HZ : Nat) (c : Int) : Env Nat where
  reg_read s _ := (c, s)
  reg_write s _ _ := (0, s)
  jiffies s := ticks HZ s % ULONG
  udelay n s := s + n
  msleep n s := s + 1000 * n

/-- LockRequestGrant chip in a world with tick rate `HZ` whose peer holds the
lock until clock value `G`: the control register reads `0x00` before `G` and
`0x02` (`LOCK_GRANT`) from `G` on, the status register reads `0x01`
(`OTHER_LOCK`) before `G` and `0x00` from `G` on, writes have no effect. The
state is the clock in microseconds. -/
def tickGrantEnv (HZ G : Nat) : Env Nat where
  reg_read s r :=
    if r = PCA9641_CONTROL then (if G ≤ s then 2 else 0, s)
    else (if s < G then 1 else 0, s)
  reg_write s _ _ := (0, s)
  jiffies s := ticks HZ s % ULONG
  udelay n s := s + n
  msleep n s := s + 1000 * n

/-! # Theorems -/

/-! ## Bytes and bit patterns -/

/-- Every integer in `0..255` is the cast of a `Fin 256`. -/
theorem byte_cases (P : Int → Prop) (h : ∀ n : Fin 256, P ((n : Nat) : Int))
    (C : Int) (h0 : 0 ≤ C) (h1 : C < 256) : P C := by
  have := h ⟨C.toNat, by omega⟩
  simpa [Int.toNat_of_nonneg h0] using this

/-- For a byte, `busoff` is false exactly when one of `BUSON`, `NBUSON` is set. -/
theorem busoff_false_bits (C : Int) (h0 : 0 ≤ C) (h1 : C < 256) (h : busoff C = false) :
    Xor' (C &&& PCA9541_CTL_BUSON ≠ 0) (C &&& PCA9541_CTL_NBUSON ≠ 0) := by
  revert h
  refine byte_cases (fun C => busoff C = false →
    Xor' (C &&& PCA9541_CTL_BUSON ≠ 0) (C &&& PCA9541_CTL_NBUSON ≠ 0)) ?_ C h0 h1
  set_option maxRecDepth 100000 in decide

/-- For a byte, `mybus` holds exactly when `MYBUS` and `NMYBUS` agree. -/
theorem mybus_true_bits (C : Int) (h0 : 0 ≤ C) (h1 : C < 256) (h : mybus C = true) :
    (C &&& PCA9541_CTL_MYBUS ≠ 0 ↔ C &&& PCA9541_CTL_NMYBUS ≠ 0) := by
  revert h
  refine byte_cases (fun C => mybus C = true →
    (C &&& PCA9541_CTL_MYBUS ≠ 0 ↔ C &&& PCA9541_CTL_NMYBUS ≠ 0)) ?_ C h0 h1
  set_option maxRecDepth 100000 in decide

/-! ## SimpleBit: the step that returns "acquired" -/

/-- A step of `pca9541_arbitrate` whose return value is neither `0` nor
negative read a control byte that is on and owned, and did nothing else than
possibly clear the stray bits. -/
theorem arbitrate_acquired {σ : Type} (env : Env σ) (data : pca9541) (s : σ)
    (h : (pca9541_arbitrate env data s).ret ≠ 0)
    (hn : ¬ (pca9541_arbitrate env data s).ret < 0) :
    0 ≤ (env.reg_read s PCA9541_CONTROL).1 ∧
    busoff (env.reg_read s PCA9541_CONTROL).1 = false ∧
    mybus (env.reg_read s PCA9541_CONTROL).1 = true ∧
    ((pca9541_arbitrate env data s).trace =
        [Event.read PCA9541_CONTROL (env.reg_read s PCA9541_CONTROL).1] ∨
      ∃ r, (pca9541_arbitrate env data s).trace =
        [Event.read PCA9541_CONTROL (env.reg_read s PCA9541_CONTROL).1,
         Event.write PCA9541_CONTROL (u8 ((env.reg_read s PCA9541_CONTROL).1 &&&
            ~~~(PCA9541_CTL_NTESTON ||| PCA9541_CTL_BUSINIT))) r]) := by
  simp only [pca9541_arbitrate] at h hn ⊢
  split_ifs at h hn ⊢ <;> simp_all

/-- Loop form of the soundness of SimpleBit acquire. -/
theorem select_loop_sound {σ : Type} (env : Env σ) (timeout : Nat) (fuel : Nat) :
    ∀ (data : pca9541) (s : σ) (o : Step σ),
      pca9541_select_loop env timeout fuel data s = some o → o.ret = 0 →
      ∃ C, 0 ≤ C ∧ busoff C = false ∧ mybus C = true ∧ EndsOwned o.trace C ∧
        ∃ s1, C = (env.reg_read s1 PCA9541_CONTROL).1 := by
  induction fuel with
  | zero => intro data s o h; simp [pca9541_select_loop] at h
  | succ n ih =>
    intro data s o h hret
    simp only [pca9541_select_loop] at h
    by_cases h1 : (pca9541_arbitrate env data s).ret ≠ 0
    · -- the step returned a non-zero value
      rw [if_pos h1] at h
      have ho := Option.some.inj h
      subst ho
      simp only at hret
      have hn : ¬ (pca9541_arbitrate env data s).ret < 0 := by
        intro hneg
        rw [if_pos hneg] at hret
        exact h1 hret
      obtain ⟨c0, cb, cm, ct⟩ := arbitrate_acquired env data s h1 hn
      refine ⟨_, c0, cb, cm, ?_, s, rfl⟩
      rcases ct with ct | ⟨r, ct⟩
      · exact ⟨[], [], by simpa using ct, Or.inl rfl⟩
      · exact ⟨[], _, by simpa using ct, Or.inr ⟨r, rfl⟩⟩
    · rw [if_neg h1] at h
      by_cases h2 : time_is_after_eq_jiffies (env.jiffies (select_delay env
          (pca9541_arbitrate env data s).data (pca9541_arbitrate env data s).st).1) timeout = true
      · -- the loop went round
        rw [if_pos h2] at h
        cases hrec : pca9541_select_loop env timeout n (pca9541_arbitrate env data s).data
            (select_delay env (pca9541_arbitrate env data s).data
              (pca9541_arbitrate env data s).st).1 with
        | none => rw [hrec] at h; simp at h
        | some o1 =>
          rw [hrec, Option.map_some'] at h
          have ho := Option.some.inj h
          subst ho
          obtain ⟨C, c0, cb, cm, ⟨pre, tail, ht, hcase⟩, hs⟩ := ih _ _ o1 hrec hret
          refine ⟨C, c0, cb, cm, ⟨((pca9541_arbitrate env data s).trace ++
            [(select_delay env (pca9541_arbitrate env data s).data
              (pca9541_arbitrate env data s).st).2, Event.timeout_check true]) ++ pre,
            tail, ?_, hcase⟩, hs⟩
          simp only [ht, List.append_assoc]
      · -- timed out
        rw [if_neg h2] at h
        have ho := Option.some.inj h
        subst ho
        simp at hret

/-- C1. SimpleBit acquire is sound. Whatever the registers return and however
the clock behaves, when `pca9541_select_chan` returns `0` (Ok) its events end
with the control read of the final arbitration step, followed at most by the
write that clears the stray bits; that read succeeded and returned a byte `C`
with the bus on (exactly one of `BUSON`, `NBUSON` set) and owned (`MYBUS` and
`NMYBUS` both set or both clear). In particular the final step is never one
that only wrote a claim. The transport contract, a read yields a byte or a
negative errno, is the hypothesis `hbyte`. -/
theorem C1_select_chan_sound {σ : Type} (env : Env σ) (HZ fuel : Nat) (data : pca9541)
    (s : σ) (o : Step σ)
    (hbyte : ∀ (s1 : σ) (r : Nat), (env.reg_read s1 r).1 < 256)
    (h : pca9541_select_chan env HZ fuel data s = some o) (hret : o.ret = 0) :
    ∃ C : Int, 0 ≤ C ∧ C < 256 ∧ EndsOwned o.trace C ∧
      busoff C = false ∧ mybus C = true ∧
      Xor' (C &&& PCA9541_CTL_BUSON ≠ 0) (C &&& PCA9541_CTL_NBUSON ≠ 0) ∧
      (C &&& PCA9541_CTL_MYBUS ≠ 0 ↔ C &&& PCA9541_CTL_NMYBUS ≠ 0) := by
  obtain ⟨C, c0, cb, cm, ct, s1, hs⟩ := select_loop_sound env _ fuel _ s o h hret
  have c1 : C < 256 := hs ▸ hbyte s1 _
  exact ⟨C, c0, c1, ct, cb, cm, busoff_false_bits C c0 c1 cb, mybus_true_bits C c0 c1 cm⟩

/-- Reads of the `Chip` world obey the transport contract. -/
theorem chipEnv_read_lt (s1 : Chip) (r : Nat) : (chipEnv.reg_read s1 r).1 < 256 := by
  simp only [chipEnv]
  split_ifs <;> simp only <;> omega

/-- Witness for C1: a run on the `Chip` world from control byte `0`; the final
step reads `132` (bus on, owned, `NTESTON` set) and clears the stray bit. -/
theorem C1_select_chan_sound_witness :
    pca9541_select_chan chipEnv 1000000 3 ⟨0, 0⟩ ⟨0, 0, 0⟩ =
        some ⟨0, ⟨50, 125000⟩, ⟨4, 0, 50⟩,
          [Event.read 1 0, Event.read 2 0, Event.write 1 132 0, Event.udelay 50,
           Event.timeout_check true, Event.read 1 132, Event.write 1 4 0]⟩ ∧
    ∃ C : Int, 0 ≤ C ∧ C < 256 ∧
      EndsOwned [Event.read 1 0, Event.read 2 0, Event.write 1 132 0, Event.udelay 50,
           Event.timeout_check true, Event.read 1 132, Event.write 1 4 0] C ∧
      busoff C = false ∧ mybus C = true ∧
      Xor' (C &&& PCA9541_CTL_BUSON ≠ 0) (C &&& PCA9541_CTL_NBUSON ≠ 0) ∧
      (C &&& PCA9541_CTL_MYBUS ≠ 0 ↔ C &&& PCA9541_CTL_NMYBUS ≠ 0) :=
  ⟨by decide, C1_select_chan_sound chipEnv 1000000 3 ⟨0, 0⟩ ⟨0, 0, 0⟩
    ⟨0, ⟨50, 125000⟩, ⟨4, 0, 50⟩,
      [Event.read 1 0, Event.read 2 0, Event.write 1 132 0, Event.udelay 50,
       Event.timeout_check true, Event.read 1 132, Event.write 1 4 0]⟩
    chipEnv_read_lt (by decide) rfl⟩

/-! ## SimpleBit: transport errors during acquire -/


theorem split_of_not_mem {α : Type} (x : α) :
    ∀ (l m pre post : List α), x ∉ l → l ++ m = pre ++ x :: post →
      ∃ pre1, pre = l ++ pre1 ∧ m = pre1 ++ x :: post := by
  intro l
  induction l with
  | nil => intro m pre post _ h; exact ⟨pre, rfl, by simpa using h⟩
  | cons a l ih =>
    intro m pre post hx h
    cases pre with
    | nil =>
      simp only [List.nil_append, List.cons_append, List.cons.injEq] at h
      exact absurd (List.mem_cons.mpr (Or.inl h.1.symm)) hx
    | cons b pre =>
      simp only [List.cons_append, List.cons.injEq] at h
      obtain ⟨pre1, h1, h2⟩ := ih m pre post (fun hm => hx (List.mem_cons_of_mem _ hm)) h.2
      exact ⟨pre1, by rw [h.1, h1, List.cons_append], h2⟩

theorem arbitrate_failed_read {σ : Type} (env : Env σ) (data : pca9541) (s : σ) (e : Int)
    (he : e < 0) (hm : Event.read PCA9541_CONTROL e ∈ (pca9541_arbitrate env data s).trace) :
    (pca9541_arbitrate env data s).trace = [Event.read PCA9541_CONTROL e] ∧
      (pca9541_arbitrate env data s).ret = e := by
  simp only [pca9541_arbitrate] at hm ⊢
  split_ifs at hm ⊢ <;> simp_all
  all_goals omega

theorem arbitrate_okWrites {σ : Type} (env : Env σ) (data : pca9541) (s : σ) :
    (pca9541_arbitrate (okWrites env) data s).obs = (pca9541_arbitrate env data s).obs := by
  simp only [pca9541_arbitrate, okWrites, Step.obs]
  split_ifs <;> simp [Event.forgetStatus]

theorem select_loop_failed_read {σ : Type} (env : Env σ) (timeout : Nat) (fuel : Nat) :
    ∀ (data : pca9541) (s : σ) (o : Step σ) (pre post : List Event) (e : Int),
      pca9541_select_loop env timeout fuel data s = some o → e < 0 →
      o.trace = pre ++ Event.read PCA9541_CONTROL e :: post →
      post = [] ∧ o.ret = e := by
  induction fuel with
  | zero => intro data s o pre post e h; simp [pca9541_select_loop] at h
  | succ n ih =>
    intro data s o pre post e h he ht
    simp only [pca9541_select_loop] at h
    by_cases h1 : (pca9541_arbitrate env data s).ret ≠ 0
    · rw [if_pos h1] at h
      have ho := Option.some.inj h
      subst ho
      simp only at ht ⊢
      have hm : Event.read PCA9541_CONTROL e ∈ (pca9541_arbitrate env data s).trace := by
        rw [ht]; simp
      obtain ⟨h3, h4⟩ := arbitrate_failed_read env data s e he hm
      rw [h3] at ht
      constructor
      · cases pre with
        | nil => simpa using ht
        | cons a pre => simp at ht
      · rw [h4, if_pos he]
    · rw [if_neg h1] at h
      have hz : (pca9541_arbitrate env data s).ret = 0 := not_not.mp h1
      have hnm : Event.read PCA9541_CONTROL e ∉ (pca9541_arbitrate env data s).trace := by
        intro hm
        have := (arbitrate_failed_read env data s e he hm).2
        omega
      by_cases h2 : time_is_after_eq_jiffies (env.jiffies (select_delay env
          (pca9541_arbitrate env data s).data (pca9541_arbitrate env data s).st).1) timeout = true
      · rw [if_pos h2] at h
        cases hrec : pca9541_select_loop env timeout n (pca9541_arbitrate env data s).data
            (select_delay env (pca9541_arbitrate env data s).data
              (pca9541_arbitrate env data s).st).1 with
        | none => rw [hrec] at h; simp at h
        | some o1 =>
          rw [hrec, Option.map_some'] at h
          have ho := Option.some.inj h
          subst ho
          simp only [List.append_assoc] at ht
          obtain ⟨p1, -, hp1⟩ := split_of_not_mem _ _ _ _ _ hnm ht
          have hd : Event.read PCA9541_CONTROL e ∉
              [(select_delay env (pca9541_arbitrate env data s).data
                (pca9541_arbitrate env data s).st).2, Event.timeout_check true] := by
            simp only [select_delay]
            split_ifs <;> simp
          obtain ⟨p2, -, hp2⟩ := split_of_not_mem _ _ _ _ _ hd hp1
          exact ih _ _ o1 p2 post e hrec he hp2
      · rw [if_neg h2] at h
        have ho := Option.some.inj h
        subst ho
        simp only at ht
        obtain ⟨p1, -, hp1⟩ := split_of_not_mem _ _ _ _ _ hnm ht
        exfalso
        have hd : Event.read PCA9541_CONTROL e ∈
              [(select_delay env (pca9541_arbitrate env data s).data
                (pca9541_arbitrate env data s).st).2, Event.timeout_check false] := by
          rw [hp1]; simp
        simp only [select_delay] at hd
        split_ifs at hd <;> simp at hd

theorem select_delay_okWrites {σ : Type} (env : Env σ) (data : pca9541) (s : σ) :
    select_delay (okWrites env) data s = select_delay env data s := rfl

theorem select_loop_okWrites {σ : Type} (env : Env σ) (timeout : Nat) (fuel : Nat) :
    ∀ (data : pca9541) (s : σ),
      (pca9541_select_loop (okWrites env) timeout fuel data s).map Step.obs =
      (pca9541_select_loop env timeout fuel data s).map Step.obs := by
  induction fuel with
  | zero => intro data s; rfl
  | succ n ih =>
    intro data s
    have ha := arbitrate_okWrites env data s
    simp only [Step.obs, Obs.mk.injEq] at ha
    obtain ⟨a1, a2, a3, a4⟩ := ha
    simp only [pca9541_select_loop, select_delay_okWrites, a1, a2, a3]
    have hj : (okWrites env).jiffies = env.jiffies := rfl
    rw [hj]
    split_ifs
    · simp [Step.obs, a4]
    · simp [Step.obs, a4]
    · have := ih (pca9541_arbitrate env data s).data (select_delay env
        (pca9541_arbitrate env data s).data (pca9541_arbitrate env data s).st).1
      revert this
      cases pca9541_select_loop (okWrites env) timeout n (pca9541_arbitrate env data s).data
        (select_delay env (pca9541_arbitrate env data s).data (pca9541_arbitrate env data s).st).1 <;>
      cases pca9541_select_loop env timeout n (pca9541_arbitrate env data s).data
        (select_delay env (pca9541_arbitrate env data s).data (pca9541_arbitrate env data s).st).1 <;>
      simp [Step.obs, a4]
    · simp [Step.obs, a4, Event.forgetStatus]

/-- C2 (counterexample). A failed write and a failed status read do not end
the call. First run: the claim write fails with `-EIO`, yet the call sleeps,
reads the control register again and returns `0`. Second run: the status read
fails with `-EIO`, yet the call sleeps, reads again and returns `0`. -/
theorem C2_counterexample :
    (pca9541_select_chan (scriptEnv 0) 1000000 3 ⟨0, 0⟩ ⟨[0, 0, 4], [-5], 0⟩).map
        (fun o => (o.ret, o.trace)) =
      some (0, [Event.read 1 0, Event.read 2 0, Event.write 1 132 (-5), Event.udelay 50,
        Event.timeout_check true, Event.read 1 4]) ∧
    (pca9541_select_chan (scriptEnv 0) 1000000 3 ⟨0, 0⟩ ⟨[0, -5, 4], [], 0⟩).map
        (fun o => (o.ret, o.trace)) =
      some (0, [Event.read 1 0, Event.read 2 (-5), Event.arb_check false, Event.msleep 2,
        Event.timeout_check true, Event.read 1 4]) := by
  constructor <;> decide

/-! ## LockRequestGrant: transport errors during acquire -/

/-- C3 (evaluation at the failing inputs). `pca9641_select_chan` does not
return a transport error. First run: the first control read fails with `-EIO`;
the call sleeps, polls again, sees the grant and returns `0`. Second run: the
control re-read after the lock request fails with `-EIO`; bit 1 of `-5` is set,
so the failure is taken for a grant, `0xff` is written and the call returns
`0`. Third run: the status read fails with `-EIO`; bit 0 of `-5` is set, so the
failure is taken for the peer's lock, and the call keeps polling and returns
`0`. -/
theorem C3_read_error_not_returned :
    (pca9641_select_chan (scriptEnv 0) 1000000 3 ⟨0, 0⟩ ⟨[-5, 2, 0], [], 0⟩).map
        (fun o => (o.ret, o.trace)) =
      some (0, [Event.read 1 (-5), Event.msleep 0, Event.timeout_check true,
        Event.read 1 2, Event.read 2 0, Event.write 1 7 0]) ∧
    (pca9641_select_chan (scriptEnv 0) 1000000 3 ⟨0, 0⟩ ⟨[0, 0, -5], [], 0⟩).map
        (fun o => (o.ret, o.trace)) =
      some (0, [Event.read 1 0, Event.read 2 0, Event.write 1 1 0, Event.read 1 (-5),
        Event.write 1 255 0]) ∧
    (pca9641_select_chan (scriptEnv 0) 1000000 3 ⟨0, 0⟩ ⟨[0, -5, 2, 0], [], 0⟩).map
        (fun o => (o.ret, o.trace)) =
      some (0, [Event.read 1 0, Event.read 2 (-5), Event.write 1 1 0, Event.msleep 1,
        Event.timeout_check true, Event.read 1 2, Event.read 2 0, Event.write 1 7 0]) := by
  refine ⟨?_, ?_, ?_⟩ <;> decide

/-! ## Release -/

/-- C7 (amended). Release returns `0` (Ok) for both variants, whatever its
register accesses report. -/
theorem C7_release_returns_ok {σ : Type} (env : Env σ) (flag : i2c_mux_flag)
    (data : pca9541) (s : σ) :
    (pca9541_release_chan env data s).ret = 0 ∧
      (pca9641_release_chan env flag data s).ret = 0 := by
  constructor
  · rfl
  · simp only [pca9641_release_chan]
    split_ifs <;> rfl

/-- C7 (counterexample). SimpleBit release whose control read fails with
`-EIO`, SimpleBit release whose write fails with `-EIO` and LockRequestGrant
release whose write fails with `-EIO` all return `0`. -/
theorem C7_counterexample :
    ((pca9541_release_chan (scriptEnv 0) ⟨0, 0⟩ ⟨[-5], [], 0⟩).ret = 0 ∧
      (pca9541_release_chan (scriptEnv 0) ⟨0, 0⟩ ⟨[-5], [], 0⟩).trace =
        [Event.read 1 (-5)]) ∧
    ((pca9541_release_chan (scriptEnv 0) ⟨0, 0⟩ ⟨[4], [-5], 0⟩).ret = 0 ∧
      (pca9541_release_chan (scriptEnv 0) ⟨0, 0⟩ ⟨[4], [-5], 0⟩).trace =
        [Event.read 1 4, Event.write 1 0 (-5)]) ∧
    ((pca9641_release_chan (scriptEnv 0) pca_flag ⟨0, 0⟩ ⟨[], [-5], 0⟩).ret = 0 ∧
      (pca9641_release_chan (scriptEnv 0) pca_flag ⟨0, 0⟩ ⟨[], [-5], 0⟩).trace =
        [Event.write 1 0x80 (-5)]) := by
  decide

/-! ## Acquire by the owner -/

/-- C8. Acquire is idempotent for an owner. Let `C` be the result of the first
control read, a successful one. SimpleBit: if `C` is on and owned,
`pca9541_select_chan` returns `0` and its events are that read, followed only
by the stray-bit write when `NTESTON` or `BUSINIT` is set. LockRequestGrant: if
`C` has `LOCK_GRANT` set, `pca9641_select_chan` returns `0` and its events are
the control read, the status read and one control write. In both cases there
is one arbitration step, no delay and no deadline comparison. -/
theorem C8_acquire_idempotent {σ : Type} (env : Env σ) (HZ fuel : Nat) (data : pca9541)
    (s : σ) (C : Int) (hC : (env.reg_read s PCA9541_CONTROL).1 = C) (h0 : 0 ≤ C) :
    (busoff C = false → mybus C = true →
      ∃ o, pca9541_select_chan env HZ (fuel + 1) data s = some o ∧ o.ret = 0 ∧
        o.trace = Event.read PCA9541_CONTROL C ::
          if C &&& (PCA9541_CTL_NTESTON ||| PCA9541_CTL_BUSINIT) != 0 then
            [Event.write PCA9541_CONTROL
              (u8 (C &&& ~~~(PCA9541_CTL_NTESTON ||| PCA9541_CTL_BUSINIT)))
              (env.reg_write (env.reg_read s PCA9541_CONTROL).2 PCA9541_CONTROL
                (u8 (C &&& ~~~(PCA9541_CTL_NTESTON ||| PCA9541_CTL_BUSINIT)))).1]
          else []) ∧
    (lock_grant C = true →
      ∃ o S r, pca9641_select_chan env HZ (fuel + 1) data s = some o ∧ o.ret = 0 ∧
        o.trace = [Event.read PCA9641_CONTROL C, Event.read PCA9641_STATUS S,
          Event.write PCA9641_CONTROL
            (u8 (C ||| (PCA9641_CTL_BUS_CONNECT ||| PCA9641_CTL_LOCK_REQ))) r]) := by
  have hn : ¬ C < 0 := by omega
  constructor
  · intro hb hm
    subst hC
    simp only [pca9541_select_chan, pca9541_select_loop, pca9541_arbitrate, hn, hb, hm]
    split_ifs <;> simp_all
  · intro hg
    have hC2 : (env.reg_read s PCA9641_CONTROL).1 = C := hC
    have hbo : ∀ y, BUSOFF C y = false := by
      intro y
      simp only [lock_grant, bne_iff_ne, ne_eq] at hg
      simp [BUSOFF, hg]
    simp only [pca9641_select_chan, pca9641_rounds, pca9641_round, pca9641_arbitrate, hC2, hn,
      hbo, hg]
    simp

/-- Witness for C8: the first control read returns `7`, which is on and owned
for SimpleBit and has `LOCK_GRANT` set for LockRequestGrant. -/
theorem C8_acquire_idempotent_witness :
    ((scriptEnv 0).reg_read ⟨[7], [], 0⟩ PCA9541_CONTROL).1 = 7 ∧ (0 : Int) ≤ 7 ∧
    busoff 7 = false ∧ mybus 7 = true ∧ lock_grant 7 = true ∧
    (∃ o, pca9541_select_chan (scriptEnv 0) 1000000 (0 + 1) ⟨0, 0⟩ ⟨[7], [], 0⟩ = some o ∧
      o.ret = 0 ∧ o.trace = [Event.read PCA9541_CONTROL 7]) ∧
    (∃ o S r, pca9641_select_chan (scriptEnv 0) 1000000 (0 + 1) ⟨0, 0⟩ ⟨[7], [], 0⟩ = some o ∧
      o.ret = 0 ∧ o.trace = [Event.read PCA9641_CONTROL 7, Event.read PCA9641_STATUS S,
        Event.write PCA9641_CONTROL 7 r]) :=
  ⟨by decide, by decide, by decide, by decide, by decide,
   (C8_acquire_idempotent (scriptEnv 0) 1000000 0 ⟨0, 0⟩ ⟨[7], [], 0⟩ 7 (by decide)
      (by decide)).1 (by decide) (by decide),
   (C8_acquire_idempotent (scriptEnv 0) 1000000 0 ⟨0, 0⟩ ⟨[7], [], 0⟩ 7 (by decide)
      (by decide)).2 (by decide)⟩

/-! ## Clock model -/

/-- With less than `2 ^ 63` ticks between them, the wrap-safe comparison of
the tick counter with a deadline `t0 + D` is the comparison of the clocks. -/
theorem time_after_eq_deadline (t0 t D : Nat) (hD : D < 2 ^ 63) (h0 : t0 ≤ t)
    (h1 : t ≤ t0 + D + 2 ^ 63) :
    time_is_after_eq_jiffies (t % ULONG) ((t0 % ULONG + D) % ULONG) = decide (t ≤ t0 + D) := by
  simp only [time_is_after_eq_jiffies, time_after_eq, ULONG]
  norm_num at hD h1 ⊢
  by_cases h : t ≤ t0 + D
  · simp only [h, iff_true]
    omega
  · simp only [h, iff_false]
    omega

/-- A SimpleBit step that returns `0` has set one of the three retry delays. -/
theorem arbitrate_delay {σ : Type} (env : Env σ) (data : pca9541) (s : σ)
    (h : (pca9541_arbitrate env data s).ret = 0) :
    retry_delay_us (pca9541_arbitrate env data s).data = 50 ∨
    retry_delay_us (pca9541_arbitrate env data s).data = 1000 ∨
    retry_delay_us (pca9541_arbitrate env data s).data = 2000 := by
  simp only [pca9541_arbitrate] at h ⊢
  split_ifs at h ⊢
  all_goals first | (simp only at h; omega) | (simp only [retry_delay_us]; norm_num)

/-- The world `heldEnv c` obeys the clock model. -/
theorem heldEnv_clock (c : Int) : SleepClock (heldEnv c) (fun s => s) :=
  ⟨fun _ => rfl, fun _ _ => rfl, fun _ _ _ => rfl, fun _ _ => rfl, fun _ _ => rfl⟩

/-! ## Clock model with a tick rate -/

/-- The tick counter does not run backwards. -/
theorem ticks_mono (HZ : Nat) {a b : Nat} (h : a ≤ b) : ticks HZ a ≤ ticks HZ b :=
  Nat.div_le_div_right (Nat.mul_le_mul_right HZ h)

/-- The clock is below `tickLimit HZ c` exactly while the tick counter has not
passed the deadline `ticks HZ c + ARB2_TIMEOUT HZ`. -/
theorem lt_tickLimit_iff (HZ c x : Nat) (hHZ : 0 < HZ) :
    x < tickLimit HZ c ↔ ticks HZ x ≤ ticks HZ c + ARB2_TIMEOUT HZ := by
  have h1 : ticks HZ x ≤ ticks HZ c + ARB2_TIMEOUT HZ ↔
      x * HZ < (ticks HZ c + ARB2_TIMEOUT HZ + 1) * 1000000 := by
    rw [← Nat.lt_succ_iff]
    exact Nat.div_lt_iff_lt_mul (by norm_num)
  have h2 : x < tickLimit HZ c ↔
      (x + 1) * HZ ≤ (ticks HZ c + ARB2_TIMEOUT HZ + 1) * 1000000 + HZ - 1 := by
    rw [tickLimit, Nat.lt_iff_add_one_le]
    exact Nat.le_div_iff_mul_le hHZ
  rw [h1, h2, Nat.add_mul]
  omega

/-- The deadline is pending when it is armed. -/
theorem lt_tickLimit (HZ c : Nat) (hHZ : 0 < HZ) : c < tickLimit HZ c :=
  (lt_tickLimit_iff HZ c c hHZ).mpr (Nat.le_add_right _ _)

/-- The deadline is passed later than `ARB2_TIMEOUT HZ` ticks after it is armed. -/
theorem tickLimit_lower (HZ c : Nat) (hHZ : 0 < HZ) :
    c * HZ + ARB2_TIMEOUT HZ * 1000000 < tickLimit HZ c * HZ := by
  have h1 : ¬ (tickLimit HZ c < tickLimit HZ c) := lt_irrefl _
  rw [lt_tickLimit_iff HZ c _ hHZ, ticks, ticks, not_le, Nat.lt_iff_add_one_le,
    Nat.le_div_iff_mul_le (by norm_num)] at h1
  have h2 := Nat.lt_div_mul_add (a := c * HZ) (b := 1000000) (by norm_num)
  omega

/-- The deadline is passed no later than 250 ms and one tick after it is armed. -/
theorem tickLimit_upper (HZ c : Nat) (hHZ : 0 < HZ) :
    tickLimit HZ c ≤ c + 250000 + 999999 / HZ + 1 := by
  by_contra h
  rw [not_le, lt_tickLimit_iff HZ c _ hHZ, ticks, ticks, ← Nat.lt_succ_iff,
    Nat.div_lt_iff_lt_mul (by norm_num)] at h
  have h1 := Nat.div_mul_le_self (c * HZ) 1000000
  have h2 : ARB2_TIMEOUT HZ * 4 ≤ HZ := Nat.div_mul_le_self HZ 4
  have h3 := Nat.lt_div_mul_add (a := 999999) (b := HZ) hHZ
  have h4 : (c + 250000 + 999999 / HZ + 1) * HZ =
      c * HZ + 250000 * HZ + (999999 / HZ * HZ + HZ) := by ring
  rw [h4] at h
  omega

/-- The deadline is passed within 1.25 s, whatever the tick rate. -/
theorem tickLimit_le (HZ c : Nat) (hHZ : 0 < HZ) : tickLimit HZ c ≤ c + 1250000 := by
  have h1 := tickLimit_upper HZ c hHZ
  have h2 : 999999 / HZ ≤ 999999 := Nat.div_le_self _ _
  omega

/-- When `HZ` is a multiple of 4 the deadline is still pending 250 ms after it
is armed. -/
theorem tickLimit_quarter (HZ c : Nat) (hHZ : 0 < HZ) (h4 : 4 ∣ HZ) :
    c + 250000 < tickLimit HZ c := by
  rw [lt_tickLimit_iff HZ c _ hHZ, ticks, ticks, ARB2_TIMEOUT]
  obtain ⟨q, rfl⟩ := h4
  have h1 : (c + 250000) * (4 * q) = c * (4 * q) + q * 1000000 := by ring
  rw [h1, Nat.add_mul_div_right _ _ (by norm_num), Nat.mul_div_cancel_left _ (by norm_num)]

/-- In the clock model with tick rate `HZ`, the loop condition
`time_is_after_eq_jiffies(timeout)` for the deadline armed in state `s0` holds
in a later state exactly while the clock is below `tickLimit`. -/
theorem tick_check {σ : Type} (env : Env σ) (clock : σ → Nat) (HZ : Nat)
    (hclk : TickClock env clock HZ) (hHZ : 0 < HZ) (hmax : HZ < 2 ^ 62) (s0 s1 : σ)
    (h0 : clock s0 ≤ clock s1) (h1 : clock s1 ≤ tickLimit HZ (clock s0) + 2000) :
    time_is_after_eq_jiffies (env.jiffies s1) ((env.jiffies s0 + ARB2_TIMEOUT HZ) % ULONG) =
      decide (clock s1 < tickLimit HZ (clock s0)) := by
  have hN : ARB2_TIMEOUT HZ * 4 ≤ HZ := Nat.div_mul_le_self HZ 4
  have hmax1 : HZ < 4611686018427387904 := by norm_num at hmax; exact hmax
  have hb : ticks HZ (clock s1) ≤ ticks HZ (clock s0) + ARB2_TIMEOUT HZ + 2 ^ 63 := by
    have a1 : ticks HZ (clock s1) * 1000000 ≤ clock s1 * HZ := Nat.div_mul_le_self _ _
    have a2 : tickLimit HZ (clock s0) * HZ ≤
        (ticks HZ (clock s0) + ARB2_TIMEOUT HZ + 1) * 1000000 + HZ - 1 := Nat.div_mul_le_self _ _
    have a3 : clock s1 * HZ ≤ (tickLimit HZ (clock s0) + 2000) * HZ :=
      Nat.mul_le_mul_right HZ h1
    rw [Nat.add_mul] at a3
    norm_num
    omega
  rw [hclk.jiffies_eq, hclk.jiffies_eq,
    time_after_eq_deadline (ticks HZ (clock s0)) (ticks HZ (clock s1)) (ARB2_TIMEOUT HZ)
      (by norm_num; omega) (ticks_mono HZ h0) hb]
  simp only [lt_tickLimit_iff HZ (clock s0) (clock s1) hHZ]

/-- A SimpleBit step takes no time. -/
theorem arbitrate_tick_clock {σ : Type} (env : Env σ) (clock : σ → Nat) (HZ : Nat)
    (hclk : TickClock env clock HZ) (data : pca9541) (s : σ) :
    clock (pca9541_arbitrate env data s).st = clock s := by
  simp only [pca9541_arbitrate]
  split_ifs <;> simp [hclk.read_clock, hclk.write_clock]

/-- The delay between two steps advances the clock by `retry_delay_us`. -/
theorem select_delay_tick_clock {σ : Type} (env : Env σ) (clock : σ → Nat) (HZ : Nat)
    (hclk : TickClock env clock HZ) (data : pca9541) (s : σ) :
    clock (select_delay env data s).1 = clock s + retry_delay_us data := by
  simp only [select_delay, retry_delay_us]
  split_ifs <;> simp [hclk.udelay_clock, hclk.msleep_clock]

/-- A LockRequestGrant step takes no time. -/
theorem arbitrate9641_tick_clock {σ : Type} (env : Env σ) (clock : σ → Nat) (HZ : Nat)
    (hclk : TickClock env clock HZ) (data : pca9541) (s : σ) :
    clock (pca9641_arbitrate env data s).st = clock s := by
  simp only [pca9641_arbitrate]
  split_ifs <;> simp [hclk.read_clock, hclk.write_clock]

/-- The clock model `SleepClock` is the clock model with one tick per
microsecond. -/
theorem sleepClock_iff_tickClock {σ : Type} (env : Env σ) (clock : σ → Nat) :
    SleepClock env clock ↔ TickClock env clock 1000000 := by
  have h : ∀ c, ticks 1000000 c = c := fun c => Nat.mul_div_cancel c (by norm_num)
  constructor
  · intro hc
    exact ⟨fun s => by rw [h]; exact hc.jiffies_eq s, hc.read_clock, hc.write_clock,
      hc.udelay_clock, hc.msleep_clock⟩
  · intro hc
    exact ⟨fun s => by rw [← h (clock s)]; exact hc.jiffies_eq s, hc.read_clock, hc.write_clock,
      hc.udelay_clock, hc.msleep_clock⟩

/-- Timeout of the SimpleBit polling loop in the clock model with tick rate
`HZ`: when every step reports "not acquired", the loop whose deadline was armed
in state `s0` returns `-ETIMEDOUT` at the end of the first delay that ends at
or after `tickLimit`. -/
theorem select_loop_tick_timeout {σ : Type} (env : Env σ) (clock : σ → Nat) (HZ : Nat)
    (hclk : TickClock env clock HZ) (hHZ : 0 < HZ) (hmax : HZ < 2 ^ 62)
    (hna : ∀ (d : pca9541) (s : σ), (pca9541_arbitrate env d s).ret = 0)
    (s0 : σ) (n : Nat) :
    ∀ (data : pca9541) (s : σ), clock s0 ≤ clock s → clock s < tickLimit HZ (clock s0) →
      tickLimit HZ (clock s0) ≤ clock s + 50 * n →
      ∃ o, pca9541_select_loop env ((env.jiffies s0 + ARB2_TIMEOUT HZ) % ULONG) n data s =
          some o ∧
        o.ret = -ETIMEDOUT ∧ tickLimit HZ (clock s0) ≤ clock o.st ∧
        clock o.st < tickLimit HZ (clock s0) + retry_delay_us o.data ∧
        clock s + retry_delay_us o.data ≤ clock o.st ∧
        (retry_delay_us o.data = 50 ∨ retry_delay_us o.data = 1000 ∨
          retry_delay_us o.data = 2000) := by
  induction n with
  | zero => intro data s h0 h1 h2; omega
  | succ n ih =>
    intro data s h0 h1 h2
    have hr := hna data s
    have hc := arbitrate_tick_clock env clock HZ hclk data s
    have hd := arbitrate_delay env data s hr
    have hs := select_delay_tick_clock env clock HZ hclk (pca9541_arbitrate env data s).data
      (pca9541_arbitrate env data s).st
    have ht := tick_check env clock HZ hclk hHZ hmax s0 (select_delay env
      (pca9541_arbitrate env data s).data (pca9541_arbitrate env data s).st).1
      (by omega) (by omega)
    rw [pca9541_select_loop]
    simp only [hr, ne_eq, not_true_eq_false, if_false]
    rw [ht]
    by_cases hlt : clock (select_delay env (pca9541_arbitrate env data s).data
        (pca9541_arbitrate env data s).st).1 < tickLimit HZ (clock s0)
    · rw [if_pos (by simpa using hlt)]
      obtain ⟨o1, ho1, r1, r2, r3, r4, r5⟩ := ih (pca9541_arbitrate env data s).data
        (select_delay env (pca9541_arbitrate env data s).data
          (pca9541_arbitrate env data s).st).1 (by omega) hlt (by omega)
      rw [ho1]
      exact ⟨_, rfl, r1, r2, r3, by show clock s + retry_delay_us o1.data ≤ clock o1.st; omega, r5⟩
    · rw [if_neg (by simpa using hlt)]
      refine ⟨_, rfl, rfl, by simpa using hlt, ?_, ?_, hd⟩
      · simp only
        omega
      · simp only
        omega

/-- In the world `tickHeldEnv HZ 5` (bus on, owned by the peer, writes without
effect) every SimpleBit step reports "not acquired". -/
theorem tickHeldEnv_not_acquired (HZ : Nat) (d : pca9541) (s : Nat) :
    (pca9541_arbitrate (tickHeldEnv HZ 5) d s).ret = 0 := by
  have h1 : busoff 5 = false := by decide
  have h2 : mybus 5 = false := by decide
  simp only [pca9541_arbitrate, tickHeldEnv, h1, h2]
  split_ifs <;> first | rfl | omega

/-- The world `tickHeldEnv HZ c` obeys the clock model with tick rate `HZ`. -/
theorem tickHeldEnv_clock (HZ : Nat) (c : Int) : TickClock (tickHeldEnv HZ c) (fun s => s) HZ :=
  ⟨fun _ => rfl, fun _ _ => rfl, fun _ _ _ => rfl, fun _ _ => rfl, fun _ _ => rfl⟩

/-- C4 (amended). SimpleBit acquire timeout. In the clock model `TickClock`
(time advances only by the delays; the tick counter `jiffies` advances `HZ`
times per second), if every arbitration step reports "not acquired", then with
enough fuel `pca9541_select_chan` returns `-ETIMEDOUT`. It does so only once
the tick counter has passed the deadline, start tick + `HZ / 4`: a step is
still attempted in every state whose tick is at most the deadline, and the
clock at the return is later than start + `HZ / 4` ticks. It returns at the end
of the first retry delay (50 us, 1 ms or 2 ms) that ends past the deadline, so
no later than one retry delay and one tick after start + 250 ms. When `HZ` is a
multiple of 4 the deadline is 250 ms: the return is strictly later than start +
250 ms and a step is still attempted at exactly start + 250 ms. -/
theorem C4_select_chan_timeout {σ : Type} (env : Env σ) (clock : σ → Nat) (HZ : Nat)
    (hclk : TickClock env clock HZ) (hHZ : 0 < HZ) (hmax : HZ < 2 ^ 62)
    (hna : ∀ (d : pca9541) (s : σ), (pca9541_arbitrate env d s).ret = 0)
    (data : pca9541) (s : σ) (fuel : Nat) (hfuel : 25000 ≤ fuel) :
    (∃ o, pca9541_select_chan env HZ fuel data s = some o ∧ o.ret = -ETIMEDOUT ∧
      ticks HZ (clock s) + ARB2_TIMEOUT HZ < ticks HZ (clock o.st) ∧
      clock s + retry_delay_us o.data ≤ clock o.st ∧
      ticks HZ (clock o.st - retry_delay_us o.data) ≤ ticks HZ (clock s) + ARB2_TIMEOUT HZ ∧
      (retry_delay_us o.data = 50 ∨ retry_delay_us o.data = 1000 ∨
        retry_delay_us o.data = 2000) ∧
      clock s * HZ + ARB2_TIMEOUT HZ * 1000000 < clock o.st * HZ ∧
      clock o.st ≤ clock s + 250000 + retry_delay_us o.data + 999999 / HZ ∧
      (4 ∣ HZ → clock s + 250000 < clock o.st)) ∧
    (∀ s1 : σ, clock s ≤ clock s1 →
      ticks HZ (clock s1) ≤ ticks HZ (clock s) + ARB2_TIMEOUT HZ →
      time_is_after_eq_jiffies (env.jiffies s1)
        ((env.jiffies s + ARB2_TIMEOUT HZ) % ULONG) = true) ∧
    (4 ∣ HZ → ∀ s1 : σ, clock s1 = clock s + 250000 →
      time_is_after_eq_jiffies (env.jiffies s1)
        ((env.jiffies s + ARB2_TIMEOUT HZ) % ULONG) = true) := by
  have hgt := lt_tickLimit HZ (clock s) hHZ
  have hle := tickLimit_le HZ (clock s) hHZ
  have hup := tickLimit_upper HZ (clock s) hHZ
  have hlo := tickLimit_lower HZ (clock s) hHZ
  have hpend : ∀ s1 : σ, clock s ≤ clock s1 → clock s1 < tickLimit HZ (clock s) →
      time_is_after_eq_jiffies (env.jiffies s1)
        ((env.jiffies s + ARB2_TIMEOUT HZ) % ULONG) = true := by
    intro s1 h1 h2
    rw [tick_check env clock HZ hclk hHZ hmax s s1 h1 (by omega)]
    simpa using h2
  refine ⟨?_, ?_, ?_⟩
  · obtain ⟨o, h1, h2, h3, h4, h6, h5⟩ := select_loop_tick_timeout env clock HZ hclk hHZ hmax hna s
      fuel { data with arb_timeout := (env.jiffies s + ARB_TIMEOUT HZ) % ULONG } s (le_refl _)
      hgt (by omega)
    refine ⟨o, h1, h2, ?_, h6, ?_, h5, ?_, by omega, ?_⟩
    · have := (lt_tickLimit_iff HZ (clock s) (clock o.st) hHZ).not
      omega
    · exact (lt_tickLimit_iff HZ (clock s) _ hHZ).mp (by omega)
    · exact lt_of_lt_of_le hlo (Nat.mul_le_mul_right HZ h3)
    · intro h4
      have := tickLimit_quarter HZ (clock s) hHZ h4
      omega
  · intro s1 h1 h2
    exact hpend s1 h1 ((lt_tickLimit_iff HZ (clock s) _ hHZ).mpr h2)
  · intro h4 s1 h1
    have := tickLimit_quarter HZ (clock s) hHZ h4
    exact hpend s1 (by omega) (by omega)

/-- Witness for C4 (amended): the world `tickHeldEnv 1000 5` with 1 ms ticks,
started at clock `3999`. -/
theorem C4_select_chan_timeout_witness :
    TickClock (tickHeldEnv 1000 5) (fun s => s) 1000 ∧ 0 < 1000 ∧ 1000 < 2 ^ 62 ∧
    (∀ (d : pca9541) (s : Nat), (pca9541_arbitrate (tickHeldEnv 1000 5) d s).ret = 0) ∧
    25000 ≤ 25000 ∧ 4 ∣ 1000 ∧
    (∃ o, pca9541_select_chan (tickHeldEnv 1000 5) 1000 25000 ⟨0, 0⟩ 3999 = some o ∧
      o.ret = -ETIMEDOUT ∧
      ticks 1000 3999 + ARB2_TIMEOUT 1000 < ticks 1000 o.st ∧
      3999 + retry_delay_us o.data ≤ o.st ∧
      ticks 1000 (o.st - retry_delay_us o.data) ≤ ticks 1000 3999 + ARB2_TIMEOUT 1000 ∧
      (retry_delay_us o.data = 50 ∨ retry_delay_us o.data = 1000 ∨
        retry_delay_us o.data = 2000) ∧
      3999 * 1000 + ARB2_TIMEOUT 1000 * 1000000 < o.st * 1000 ∧
      o.st ≤ 3999 + 250000 + retry_delay_us o.data + 999999 / 1000 ∧
      3999 + 250000 < o.st) := by
  obtain ⟨o, h1, h2, h3, h4, h5, h6, h7, h8, h9⟩ :=
    (C4_select_chan_timeout (tickHeldEnv 1000 5) (fun s => s) 1000 (tickHeldEnv_clock 1000 5)
      (by decide) (by norm_num) (tickHeldEnv_not_acquired 1000) ⟨0, 0⟩ 3999 25000 (le_refl _)).1
  exact ⟨tickHeldEnv_clock 1000 5, by decide, by norm_num, tickHeldEnv_not_acquired 1000,
    le_refl _, by decide, o, h1, h2, h3, h4, h5, h6, h7, h8, h9 (by decide)⟩

set_option maxRecDepth 1000000 in
/-- C4 (counterexample). With 4 ms ticks (`HZ = 250`, so `ARB2_TIMEOUT` is 62
ticks) and the peer holding the bus, the call begun at clock 3999 us returns
`-ETIMEDOUT` at clock 252999 us, 249 ms after the start and so not later than
start + 250 ms. With 10 ms ticks (`HZ = 100`) the call begun at clock 0 returns
`-ETIMEDOUT` at clock 260000 us after a retry delay of 1000 us, 9 ms later
than one retry delay after start + 250 ms. -/
theorem C4_counterexample :
    (pca9541_select_chan (tickHeldEnv 250 5) 250 249 ⟨0, 0⟩ 3999).map
        (fun o => (o.ret, o.st)) = some (-ETIMEDOUT, 252999) ∧
    ¬ (3999 + 250000 < 252999) ∧
    (pca9541_select_chan (tickHeldEnv 100 5) 100 260 ⟨0, 0⟩ 0).map
        (fun o => (o.ret, o.st, retry_delay_us o.data)) = some (-ETIMEDOUT, 260000, 1000) ∧
    ¬ (260000 ≤ 0 + 250000 + 1000) := by
  refine ⟨by decide, by decide, by decide, by decide⟩

/-! ## LockRequestGrant: retry rounds -/

/-- A LockRequestGrant step that reads no grant and the peer's lock returns
`0`, sets the long retry delay and evaluates no deadline. -/
theorem arbitrate9641_peer_lock {σ : Type} (env : Env σ) (data : pca9541) (s : σ)
    (h0 : 0 ≤ (env.reg_read s PCA9641_CONTROL).1)
    (hg : lock_grant (env.reg_read s PCA9641_CONTROL).1 = false)
    (hl : other_lock (env.reg_read (env.reg_read s PCA9641_CONTROL).2 PCA9641_STATUS).1 = true) :
    (pca9641_arbitrate env data s).ret = 0 ∧
    (pca9641_arbitrate env data s).data = { data with select_timeout := SELECT_DELAY_LONG } ∧
    timeoutChecks (pca9641_arbitrate env data s).trace = [] := by
  have hn : ¬ (env.reg_read s PCA9641_CONTROL).1 < 0 := by omega
  have hb : BUSOFF (env.reg_read s PCA9641_CONTROL).1
      (env.reg_read (env.reg_read s PCA9641_CONTROL).2 PCA9641_STATUS).1 = false := by
    simp only [other_lock, bne_iff_ne, ne_eq] at hl
    simp [BUSOFF, hl]
  simp only [pca9641_arbitrate, hn, hb, hg, hl]
  simp [timeoutChecks]

/-- A LockRequestGrant step whose first control read succeeds with
`LOCK_GRANT` set returns `1`. -/
theorem arbitrate9641_granted {σ : Type} (env : Env σ) (data : pca9541) (s : σ)
    (h0 : 0 ≤ (env.reg_read s PCA9641_CONTROL).1)
    (hg : lock_grant (env.reg_read s PCA9641_CONTROL).1 = true) :
    (pca9641_arbitrate env data s).ret = 1 := by
  have hn : ¬ (env.reg_read s PCA9641_CONTROL).1 < 0 := by omega
  have hb : ∀ y, BUSOFF (env.reg_read s PCA9641_CONTROL).1 y = false := by
    intro y
    simp only [lock_grant, bne_iff_ne, ne_eq] at hg
    simp [BUSOFF, hg]
  simp only [pca9641_arbitrate, hn, hb, hg]
  simp

/-- The deadline checks of two event lists in sequence. -/
theorem timeoutChecks_append (a b : List Event) :
    timeoutChecks (a ++ b) = timeoutChecks a ++ timeoutChecks b := by
  simp [timeoutChecks, List.filterMap_append]

/-- The delay between two steps followed by a deadline comparison. -/
theorem timeoutChecks_delay {σ : Type} (env : Env σ) (data : pca9541) (s : σ) (b : Bool) :
    timeoutChecks [(select_delay env data s).2, Event.timeout_check b] = [b] := by
  simp only [select_delay]
  split_ifs <;> simp [timeoutChecks]

/-- Before `G` a step of the peer-lock world returns `0` with the long delay. -/
theorem peer_lock_tick_step {σ : Type} (env : Env σ) (clock : σ → Nat) (HZ : Nat)
    (hclk : TickClock env clock HZ) (G : Nat) (hw : PeerLockUntil env clock G) (data : pca9541)
    (s : σ) (h : clock s < G) :
    (pca9641_arbitrate env data s).ret = 0 ∧
    (pca9641_arbitrate env data s).data = { data with select_timeout := SELECT_DELAY_LONG } ∧
    timeoutChecks (pca9641_arbitrate env data s).trace = [] := by
  have hg : lock_grant (env.reg_read s PCA9641_CONTROL).1 = false := by
    have := hw.ctl_grant s
    cases hlg : lock_grant (env.reg_read s PCA9641_CONTROL).1
    · rfl
    · have := this.mp hlg
      omega
  exact arbitrate9641_peer_lock env data s (hw.ctl_ok s) hg
    (hw.sts_lock _ (by rw [hclk.read_clock]; exact h))

/-- A round of the peer-lock world in which the grant does not show before the
round's last step: with `k` steps to go before the clock reaches `tickLimit`,
it expires `k` ms later after `k` deadline comparisons. -/
theorem round_tick_expires {σ : Type} (env : Env σ) (clock : σ → Nat) (HZ : Nat)
    (hclk : TickClock env clock HZ) (hHZ : 0 < HZ) (hmax : HZ < 2 ^ 62)
    (G : Nat) (hw : PeerLockUntil env clock G) (s0 : σ) (n : Nat) :
    ∀ (k : Nat) (data : pca9541) (s : σ), clock s0 ≤ clock s → 0 < k → k ≤ n →
      clock s + 1000 * (k - 1) < tickLimit HZ (clock s0) →
      tickLimit HZ (clock s0) ≤ clock s + 1000 * k →
      clock s + 1000 * (k - 1) < G →
      ∃ o, pca9641_round env ((env.jiffies s0 + ARB2_TIMEOUT HZ) % ULONG) n data s = some o ∧
        o.returned = false ∧ clock o.st = clock s + 1000 * k ∧
        timeoutChecks o.trace = List.replicate (k - 1) true ++ [false] := by
  induction n with
  | zero => intro k data s h0 h1 h2; omega
  | succ n ih =>
    intro k data s h0 h1 h2 h3 h4 h5
    obtain ⟨hr, hd, hc⟩ := peer_lock_tick_step env clock HZ hclk G hw data s (by omega)
    have hck := arbitrate9641_tick_clock env clock HZ hclk data s
    have hs := select_delay_tick_clock env clock HZ hclk (pca9641_arbitrate env data s).data
      (pca9641_arbitrate env data s).st
    have hrd : retry_delay_us (pca9641_arbitrate env data s).data = 1000 := by
      rw [hd]; simp [retry_delay_us]
    have ht := tick_check env clock HZ hclk hHZ hmax s0 (select_delay env
      (pca9641_arbitrate env data s).data (pca9641_arbitrate env data s).st).1
      (by omega) (by omega)
    rw [pca9641_round]
    simp only [hr]
    rw [ht]
    by_cases hlt : clock (select_delay env (pca9641_arbitrate env data s).data
        (pca9641_arbitrate env data s).st).1 < tickLimit HZ (clock s0)
    · rw [if_neg (by decide), if_pos (by simpa using hlt)]
      obtain ⟨o1, ho1, r1, r2, r3⟩ := ih (k - 1) (pca9641_arbitrate env data s).data
        (select_delay env (pca9641_arbitrate env data s).data
          (pca9641_arbitrate env data s).st).1 (by omega) (by omega) (by omega) (by omega)
        (by omega) (by omega)
      rw [ho1]
      refine ⟨_, rfl, r1, by show clock o1.st = _; omega, ?_⟩
      simp only [Option.map_some', timeoutChecks_append, hc, timeoutChecks_delay, r3,
        List.nil_append]
      have : k - 1 = (k - 1 - 1) + 1 := by omega
      rw [this, List.replicate_succ]
      simp
    · rw [if_neg (by decide), if_neg (by simpa using hlt)]
      have hk : k = 1 := by omega
      subst hk
      refine ⟨_, rfl, rfl, by simp only; omega, ?_⟩
      simp only [timeoutChecks_append, hc, timeoutChecks_delay, List.nil_append]
      rfl

/-- A round of the peer-lock world in which the grant shows by the round's
last step returns. -/
theorem round_tick_granted {σ : Type} (env : Env σ) (clock : σ → Nat) (HZ : Nat)
    (hclk : TickClock env clock HZ) (hHZ : 0 < HZ) (hmax : HZ < 2 ^ 62)
    (G : Nat) (hw : PeerLockUntil env clock G) (s0 : σ) (n : Nat) :
    ∀ (k : Nat) (data : pca9541) (s : σ), clock s0 ≤ clock s → 0 < k → k ≤ n →
      clock s + 1000 * (k - 1) < tickLimit HZ (clock s0) →
      G ≤ clock s + 1000 * (k - 1) →
      ∃ o, pca9641_round env ((env.jiffies s0 + ARB2_TIMEOUT HZ) % ULONG) n data s = some o ∧
        o.returned = true := by
  induction n with
  | zero => intro k data s h0 h1 h2; omega
  | succ n ih =>
    intro k data s h0 h1 h2 h3 h5
    by_cases hG : G ≤ clock s
    · have hr := arbitrate9641_granted env data s (hw.ctl_ok s) ((hw.ctl_grant s).mpr hG)
      rw [pca9641_round]
      simp only [hr, if_true]
      exact ⟨_, rfl, rfl⟩
    · obtain ⟨hr, hd, -⟩ := peer_lock_tick_step env clock HZ hclk G hw data s (by omega)
      have hck := arbitrate9641_tick_clock env clock HZ hclk data s
      have hs := select_delay_tick_clock env clock HZ hclk (pca9641_arbitrate env data s).data
        (pca9641_arbitrate env data s).st
      have hrd : retry_delay_us (pca9641_arbitrate env data s).data = 1000 := by
        rw [hd]; simp [retry_delay_us]
      have ht := tick_check env clock HZ hclk hHZ hmax s0 (select_delay env
        (pca9641_arbitrate env data s).data (pca9641_arbitrate env data s).st).1
        (by omega) (by omega)
      have hlt : clock (select_delay env (pca9641_arbitrate env data s).data
          (pca9641_arbitrate env data s).st).1 < tickLimit HZ (clock s0) := by omega
      rw [pca9641_round]
      simp only [hr]
      rw [ht, if_neg (by decide), if_pos (by simpa using hlt)]
      obtain ⟨o1, ho1, r1⟩ := ih (k - 1) (pca9641_arbitrate env data s).data
        (select_delay env (pca9641_arbitrate env data s).data
          (pca9641_arbitrate env data s).st).1 (by omega) (by omega) (by omega) (by omega)
        (by omega)
      rw [ho1]
      exact ⟨_, rfl, r1⟩

/-- A round ends after the deadline armed at its start is passed, and the step
before its end began while the deadline was pending. -/
theorem roundEnd_spec (HZ c : Nat) (hHZ : 0 < HZ) :
    c + 1000 ≤ roundEnd HZ c ∧ 1000 ∣ roundEnd HZ c - c ∧
    ticks HZ (roundEnd HZ c - 1000) ≤ ticks HZ c + ARB2_TIMEOUT HZ ∧
    ticks HZ c + ARB2_TIMEOUT HZ < ticks HZ (roundEnd HZ c) := by
  have hgt := lt_tickLimit HZ c hHZ
  have h1 : roundEnd HZ c - 1000 < tickLimit HZ c := by
    simp only [roundEnd]
    omega
  have h2 : ¬ roundEnd HZ c < tickLimit HZ c := by
    simp only [roundEnd]
    omega
  refine ⟨by simp only [roundEnd]; omega, ⟨(tickLimit HZ c - c + 999) / 1000, ?_⟩,
    (lt_tickLimit_iff HZ c _ hHZ).mp h1, ?_⟩
  · simp only [roundEnd]
    omega
  · rw [lt_tickLimit_iff HZ c _ hHZ] at h2
    omega

/-- Rounds end no earlier than they begin. -/
theorem le_roundsEnd (HZ m : Nat) : ∀ c, c ≤ roundsEnd HZ m c := by
  induction m with
  | zero => intro c; exact le_refl _
  | succ m ih =>
    intro c
    exact le_trans (Nat.le_add_right _ _) (ih (roundEnd HZ c))

/-- Each of `m` rounds has one deadline comparison that ends it. -/
theorem roundsChecks_count (HZ m : Nat) : ∀ c, (roundsChecks HZ m c).count false = m := by
  induction m with
  | zero => intro c; rfl
  | succ m ih =>
    intro c
    rw [roundsChecks, List.count_append, List.count_append, ih, List.count_replicate]
    simp only [Bool.true_eq_false, beq_iff_eq, if_false, List.count_singleton, beq_self_eq_true,
      if_true]
    omega

/-- Retry rounds of the peer-lock world when the grant does not show before
the last step of the last round: all `m` rounds expire and the call returns
`-ETIMEDOUT`. -/
theorem rounds_tick_expire {σ : Type} (env : Env σ) (clock : σ → Nat) (HZ : Nat)
    (hclk : TickClock env clock HZ) (hHZ : 0 < HZ) (hmax : HZ < 2 ^ 62)
    (G : Nat) (hw : PeerLockUntil env clock G) (fuel : Nat) (hfuel : 1250 ≤ fuel) (m : Nat) :
    ∀ (data : pca9541) (s : σ), roundsEnd HZ m (clock s) < G + 1000 →
      ∃ o, pca9641_rounds env HZ fuel m ((env.jiffies s + ARB2_TIMEOUT HZ) % ULONG) data s =
          some o ∧
        o.ret = -ETIMEDOUT ∧ clock o.st = roundsEnd HZ m (clock s) ∧
        timeoutChecks o.trace = roundsChecks HZ m (clock s) := by
  induction m with
  | zero =>
    intro data s _
    exact ⟨_, rfl, rfl, rfl, rfl⟩
  | succ m ih =>
    intro data s hG
    have hgt := lt_tickLimit HZ (clock s) hHZ
    have hle := tickLimit_le HZ (clock s) hHZ
    have hmono := le_roundsEnd HZ m (roundEnd HZ (clock s))
    have hend : roundEnd HZ (clock s) =
        clock s + 1000 * ((tickLimit HZ (clock s) - clock s + 999) / 1000) := rfl
    have hG1 : roundsEnd HZ m (roundEnd HZ (clock s)) < G + 1000 := hG
    obtain ⟨o1, h1, h2, h3, h4⟩ := round_tick_expires env clock HZ hclk hHZ hmax G hw s fuel
      ((tickLimit HZ (clock s) - clock s + 999) / 1000) data s (le_refl _)
      (by omega) (by omega) (by omega) (by omega) (by omega)
    have h3a : clock o1.st = roundEnd HZ (clock s) := by rw [h3, hend]
    obtain ⟨o2, k1, k2, k3, k4⟩ := ih o1.data o1.st (by rw [h3a]; exact hG1)
    have hnr : ¬ o1.returned = true := by rw [h2]; decide
    rw [pca9641_rounds, h1]
    refine ⟨⟨o2.ret, o2.data, o2.st, o1.trace ++ o2.trace⟩, ?_, k2, ?_, ?_⟩
    · show (if o1.returned = true then _ else _) = _
      rw [if_neg hnr, k1]
      rfl
    · show clock o2.st = roundsEnd HZ m (roundEnd HZ (clock s))
      rw [k3, h3a]
    · show timeoutChecks (o1.trace ++ o2.trace) = _
      rw [timeoutChecks_append, k4, h4, h3a, roundsChecks, hend]
      have : (clock s + 1000 * ((tickLimit HZ (clock s) - clock s + 999) / 1000) - clock s) / 1000
          = (tickLimit HZ (clock s) - clock s + 999) / 1000 := by omega
      rw [this, List.append_assoc]

/-- Retry rounds of the peer-lock world when the grant shows by the last step
of the last round: the call returns `0`. -/
theorem rounds_tick_granted {σ : Type} (env : Env σ) (clock : σ → Nat) (HZ : Nat)
    (hclk : TickClock env clock HZ) (hHZ : 0 < HZ) (hmax : HZ < 2 ^ 62)
    (G : Nat) (hw : PeerLockUntil env clock G) (fuel : Nat) (hfuel : 1250 ≤ fuel) (m : Nat) :
    ∀ (data : pca9541) (s : σ), G + 1000 ≤ roundsEnd HZ m (clock s) → 0 < m →
      ∃ o, pca9641_rounds env HZ fuel m ((env.jiffies s + ARB2_TIMEOUT HZ) % ULONG) data s =
          some o ∧ o.ret = 0 := by
  induction m with
  | zero => intro data s _ h; omega
  | succ m ih =>
    intro data s hG _
    have hgt := lt_tickLimit HZ (clock s) hHZ
    have hle := tickLimit_le HZ (clock s) hHZ
    have hend : roundEnd HZ (clock s) =
        clock s + 1000 * ((tickLimit HZ (clock s) - clock s + 999) / 1000) := rfl
    have hG1 : G + 1000 ≤ roundsEnd HZ m (roundEnd HZ (clock s)) := hG
    by_cases hnow : G + 1000 ≤ roundEnd HZ (clock s)
    · obtain ⟨o1, h1, h2⟩ := round_tick_granted env clock HZ hclk hHZ hmax G hw s fuel
        ((tickLimit HZ (clock s) - clock s + 999) / 1000) data s (le_refl _)
        (by omega) (by omega) (by omega) (by omega)
      rw [pca9641_rounds, h1]
      refine ⟨⟨0, o1.data, o1.st, o1.trace⟩, ?_, rfl⟩
      show (if o1.returned = true then _ else _) = _
      rw [if_pos h2]
    · obtain ⟨o1, h1, h2, h3, -⟩ := round_tick_expires env clock HZ hclk hHZ hmax G hw s fuel
        ((tickLimit HZ (clock s) - clock s + 999) / 1000) data s (le_refl _)
        (by omega) (by omega) (by omega) (by omega) (by omega)
      have h3a : clock o1.st = roundEnd HZ (clock s) := by rw [h3, hend]
      have hm : 0 < m := by
        rcases Nat.eq_zero_or_pos m with h0 | h0
        · subst h0
          exact absurd hG1 hnow
        · exact h0
      obtain ⟨o2, k1, k2⟩ := ih o1.data o1.st (by rw [h3a]; exact hG1) hm
      have hnr : ¬ o1.returned = true := by rw [h2]; decide
      rw [pca9641_rounds, h1]
      refine ⟨⟨o2.ret, o2.data, o2.st, o1.trace ++ o2.trace⟩, ?_, k2⟩
      show (if o1.returned = true then _ else _) = _
      rw [if_neg hnr, k1]
      rfl

/-- The world `tickGrantEnv HZ G` obeys the clock model with tick rate `HZ`. -/
theorem tickGrantEnv_clock (HZ G : Nat) : TickClock (tickGrantEnv HZ G) (fun s => s) HZ := by
  refine ⟨fun _ => rfl, ?_, fun _ _ _ => rfl, fun _ _ => rfl, fun _ _ => rfl⟩
  intro s r
  simp only [tickGrantEnv]
  split_ifs <;> rfl

/-- In the world `tickGrantEnv HZ G` the peer holds the lock until `G`. -/
theorem tickGrantEnv_peer_lock (HZ G : Nat) :
    PeerLockUntil (tickGrantEnv HZ G) (fun s => s) G := by
  refine ⟨?_, ?_, ?_⟩
  · intro s
    simp only [tickGrantEnv, if_true]
    split_ifs <;> decide
  · intro s
    simp only [tickGrantEnv, if_true]
    split_ifs with h
    · simp only [h, iff_true]; decide
    · simp only [h, iff_false]; decide
  · intro s h
    have hne : ¬ (PCA9641_STATUS = PCA9641_CONTROL) := by decide
    simp only [tickGrantEnv, if_neg hne, if_pos h]
    decide

/-- C5 (amended). LockRequestGrant retry budget. In the clock model
`TickClock` (time advances only by the delays; the tick counter `jiffies`
advances `HZ` times per second), with the peer holding the lock until clock
value `G` (control reads succeed and show `LOCK_GRANT` from `G` on, the status
register shows `OTHER_LOCK` before `G`) and 1250 steps of fuel per round,
`pca9641_select_chan` returns. The last step of round 8 begins at clock value
`roundsEnd HZ 8 start - 1000`. If the grant shows by then, the call returns
`0`. If it does not, the call returns `-ETIMEDOUT` after exactly 8 rounds, at
clock value `roundsEnd HZ 8 start`: the deadline comparisons are those of
`roundsChecks`, 8 of which end a round. Each round steps once per millisecond
until the tick counter has passed the round's own deadline, round-start tick +
`HZ / 4`: the step before the end of the round began while the deadline was
pending. A round ends no later than 250 ms, one step and one tick after it
began, and when `HZ` is a multiple of 4 it ends later than round start +
250 ms. -/
theorem C5_select_chan_rounds {σ : Type} (env : Env σ) (clock : σ → Nat) (HZ : Nat)
    (hclk : TickClock env clock HZ) (hHZ : 0 < HZ) (hmax : HZ < 2 ^ 62)
    (G : Nat) (hw : PeerLockUntil env clock G)
    (data : pca9541) (s : σ) (fuel : Nat) (hfuel : 1250 ≤ fuel) :
    (∃ o, pca9641_select_chan env HZ fuel data s = some o ∧
      (G + 1000 ≤ roundsEnd HZ 8 (clock s) → o.ret = 0) ∧
      (roundsEnd HZ 8 (clock s) < G + 1000 →
        o.ret = -ETIMEDOUT ∧ clock o.st = roundsEnd HZ 8 (clock s) ∧
        timeoutChecks o.trace = roundsChecks HZ 8 (clock s) ∧
        (timeoutChecks o.trace).count false = 8)) ∧
    (∀ c, c + 1000 ≤ roundEnd HZ c ∧ 1000 ∣ roundEnd HZ c - c ∧
      ticks HZ (roundEnd HZ c - 1000) ≤ ticks HZ c + ARB2_TIMEOUT HZ ∧
      ticks HZ c + ARB2_TIMEOUT HZ < ticks HZ (roundEnd HZ c) ∧
      roundEnd HZ c ≤ c + 250000 + 1000 + 999999 / HZ ∧
      (4 ∣ HZ → c + 250000 < roundEnd HZ c)) := by
  constructor
  · simp only [pca9641_select_chan]
    by_cases hG : G + 1000 ≤ roundsEnd HZ 8 (clock s)
    · obtain ⟨o, h1, h2⟩ := rounds_tick_granted env clock HZ hclk hHZ hmax G hw fuel hfuel 8
        { data with arb_timeout := (env.jiffies s + ARB_TIMEOUT HZ) % ULONG } s hG (by omega)
      exact ⟨o, h1, fun _ => h2, fun h => by omega⟩
    · obtain ⟨o, h1, h2, h3, h4⟩ := rounds_tick_expire env clock HZ hclk hHZ hmax G hw fuel
        hfuel 8 { data with arb_timeout := (env.jiffies s + ARB_TIMEOUT HZ) % ULONG } s
        (by omega)
      exact ⟨o, h1, fun h => absurd h hG,
        fun _ => ⟨h2, h3, h4, by rw [h4]; exact roundsChecks_count HZ 8 (clock s)⟩⟩
  · intro c
    obtain ⟨a1, a2, a3, a4⟩ := roundEnd_spec HZ c hHZ
    have hup := tickLimit_upper HZ c hHZ
    have hgt := lt_tickLimit HZ c hHZ
    have hend : roundEnd HZ c = c + 1000 * ((tickLimit HZ c - c + 999) / 1000) := rfl
    refine ⟨a1, a2, a3, a4, by omega, ?_⟩
    intro h4
    have := tickLimit_quarter HZ c hHZ h4
    omega

/-- Witness for C5 (amended): worlds with 1 ms ticks started at clock `0`. In
`tickGrantEnv 1000 2007000` the grant shows at the last step of round 8 and the
call returns `0`; in `tickGrantEnv 1000 2007001` it shows too late and the call
returns `-ETIMEDOUT`. -/
theorem C5_select_chan_rounds_witness :
    TickClock (tickGrantEnv 1000 2007000) (fun s => s) 1000 ∧ 0 < 1000 ∧ 1000 < 2 ^ 62 ∧
    PeerLockUntil (tickGrantEnv 1000 2007000) (fun s => s) 2007000 ∧ 1250 ≤ 1250 ∧
    2007000 + 1000 ≤ roundsEnd 1000 8 0 ∧
    (∃ o, pca9641_select_chan (tickGrantEnv 1000 2007000) 1000 1250 ⟨0, 0⟩ 0 = some o ∧
      o.ret = 0) ∧
    roundsEnd 1000 8 0 < 2007001 + 1000 ∧
    (∃ o, pca9641_select_chan (tickGrantEnv 1000 2007001) 1000 1250 ⟨0, 0⟩ 0 = some o ∧
      o.ret = -ETIMEDOUT ∧ o.st = 2008000 ∧ (timeoutChecks o.trace).count false = 8) := by
  have h1 := (C5_select_chan_rounds (tickGrantEnv 1000 2007000) (fun s => s) 1000
    (tickGrantEnv_clock 1000 2007000) (by decide) (by norm_num) 2007000
    (tickGrantEnv_peer_lock 1000 2007000) ⟨0, 0⟩ 0 1250 (le_refl _)).1
  have h2 := (C5_select_chan_rounds (tickGrantEnv 1000 2007001) (fun s => s) 1000
    (tickGrantEnv_clock 1000 2007001) (by decide) (by norm_num) 2007001
    (tickGrantEnv_peer_lock 1000 2007001) ⟨0, 0⟩ 0 1250 (le_refl _)).1
  have e1 : roundsEnd 1000 8 0 = 2008000 := by decide
  obtain ⟨o1, a1, a2, -⟩ := h1
  obtain ⟨o2, b1, -, b2⟩ := h2
  refine ⟨tickGrantEnv_clock 1000 2007000, by decide, by norm_num,
    tickGrantEnv_peer_lock 1000 2007000, le_refl _, by rw [e1], ⟨o1, a1, a2 (by rw [e1])⟩,
    by rw [e1]; decide, ⟨o2, b1, ?_⟩⟩
  obtain ⟨c1, c2, -, c4⟩ := b2 (by rw [e1]; decide)
  exact ⟨c1, by rw [← e1]; exact c2, c4⟩

set_option maxRecDepth 1000000 in
/-- C5 (counterexample). With 4 ms ticks (`HZ = 250`, so `ARB2_TIMEOUT` is 62
ticks) a round does not last until the clock has passed round start + 250 ms.
The round begun at clock 3999 us, its deadline armed there, expires at clock
252999 us after 249 deadline comparisons, 249 ms after it began. In the call
begun at clock 3999 us with the grant showing from 252999 us on, round 1
expires at 252999 us and the first step of round 2 returns `0` there. -/
theorem C5_counterexample :
    (pca9641_round (tickGrantEnv 250 3000000)
        (((tickGrantEnv 250 3000000).jiffies 3999 + ARB2_TIMEOUT 250) % ULONG) 249 ⟨0, 0⟩ 3999).map
        (fun o => (o.returned, o.st, timeoutChecks o.trace)) =
      some (false, 252999, List.replicate 248 true ++ [false]) ∧
    (pca9641_select_chan (tickGrantEnv 250 252999) 250 249 ⟨0, 0⟩ 3999).map
        (fun o => (o.ret, o.st, timeoutChecks o.trace)) =
      some (0, 252999, List.replicate 248 true ++ [false]) ∧
    ¬ (3999 + 250000 < 252999) := by
  refine ⟨by decide, by decide, by decide⟩

/-! ## SimpleBit against the quiet-peer chip -/

/-- Control register of the `Chip` world after a write of `v`. -/
theorem chipEnv_write (s : Chip) (v : Nat) :
    chipEnv.reg_write s PCA9541_CONTROL v =
      (0, { s with ctl := (s.ctl % 256 &&& 0x0a) ||| (v % 256 &&& 0xf5) }) := by
  simp [chipEnv]

/-- The status register of the `Chip` world never shows `NMYTEST`. -/
theorem chipEnv_istat (s : Chip) :
    ((chipEnv.reg_read s PCA9541_ISTAT).1 &&& PCA9541_ISTAT_NMYTEST == 0) = true := by
  have h : ∀ n : Fin 128, ((((n : Nat) : Int) &&& PCA9541_ISTAT_NMYTEST) == 0) = true := by
    set_option maxRecDepth 100000 in decide
  have hne : ¬ (PCA9541_ISTAT = PCA9541_CONTROL) := by decide
  simp only [chipEnv, if_neg hne]
  exact h ⟨s.istat % 128, Nat.mod_lt _ (by norm_num)⟩

/-- The `Chip` world obeys the clock model. -/
theorem chipEnv_clock : SleepClock chipEnv (fun s => s.clock) := by
  refine ⟨fun _ => rfl, ?_, ?_, fun _ _ => rfl, fun _ _ => rfl⟩
  · intro s r
    simp only [chipEnv]
    split_ifs <;> rfl
  · intro s r v
    simp only [chipEnv]
    split_ifs <;> rfl

/-- One step of the polling loop that reports "not acquired" within the
deadline: the loop goes round. -/
theorem select_loop_continue {σ : Type} (env : Env σ) (timeout n : Nat) (data : pca9541) (s : σ)
    (hr : (pca9541_arbitrate env data s).ret = 0)
    (ht : time_is_after_eq_jiffies (env.jiffies (select_delay env
      (pca9541_arbitrate env data s).data (pca9541_arbitrate env data s).st).1) timeout = true) :
    pca9541_select_loop env timeout (n + 1) data s =
      (pca9541_select_loop env timeout n (pca9541_arbitrate env data s).data
        (select_delay env (pca9541_arbitrate env data s).data
          (pca9541_arbitrate env data s).st).1).map fun o =>
        { o with trace := (pca9541_arbitrate env data s).trace ++
            [(select_delay env (pca9541_arbitrate env data s).data
              (pca9541_arbitrate env data s).st).2, Event.timeout_check true] ++ o.trace } := by
  rw [pca9541_select_loop]
  simp only [hr, ne_eq, not_true_eq_false, if_false, ht, if_true]

/-- One step of the polling loop that reports "acquired": the call returns `0`. -/
theorem select_loop_done {σ : Type} (env : Env σ) (timeout n : Nat) (data : pca9541) (s : σ)
    (hr : (pca9541_arbitrate env data s).ret = 1) :
    pca9541_select_loop env timeout (n + 1) data s =
      some ⟨0, (pca9541_arbitrate env data s).data, (pca9541_arbitrate env data s).st,
        (pca9541_arbitrate env data s).trace⟩ := by
  rw [pca9541_select_loop]
  simp [hr]

/-- Claim step on the `Chip` world: the bus reads off, so the step writes the
claim, sets the short delay and reports "not acquired". -/
theorem chip_step_off (d : pca9541) (s : Chip)
    (hb : busoff ((s.ctl % 256 : Nat) : Int) = true) :
    pca9541_arbitrate chipEnv d s =
      ⟨0, { d with select_timeout := SELECT_DELAY_SHORT },
        { s with ctl := chipStore (s.ctl % 256) (claimByte (s.ctl % 256)) },
        [Event.read PCA9541_CONTROL ((s.ctl % 256 : Nat) : Int),
         Event.read PCA9541_ISTAT ((s.istat % 128 : Nat) : Int),
         Event.write PCA9541_CONTROL (claimByte (s.ctl % 256)) 0]⟩ := by
  have hi := chipEnv_istat s
  have hrd : chipEnv.reg_read s PCA9541_CONTROL = (((s.ctl % 256 : Nat) : Int), s) := rfl
  have hri : chipEnv.reg_read s PCA9541_ISTAT = (((s.istat % 128 : Nat) : Int), s) := rfl
  have hn : ¬ (((s.ctl % 256 : Nat) : Int) < 0) := by omega
  rw [hri] at hi
  simp only [pca9541_arbitrate, hrd, hri, hn, hb, hi, if_true, if_false, chipEnv_write]
  simp [chipStore, claimByte]

/-- Owner step on the `Chip` world: the bus reads on and owned, so the step
clears the stray bits if any and reports "acquired". -/
theorem chip_step_owned (d : pca9541) (s : Chip)
    (hb : busoff ((s.ctl % 256 : Nat) : Int) = false)
    (hm : mybus ((s.ctl % 256 : Nat) : Int) = true) :
    pca9541_arbitrate chipEnv d s =
      if ((s.ctl % 256 : Nat) : Int) &&& (PCA9541_CTL_NTESTON ||| PCA9541_CTL_BUSINIT) != 0 then
        ⟨1, d, { s with ctl := chipStore (s.ctl % 256) (clearByte (s.ctl % 256)) },
          [Event.read PCA9541_CONTROL ((s.ctl % 256 : Nat) : Int),
           Event.write PCA9541_CONTROL (clearByte (s.ctl % 256)) 0]⟩
      else
        ⟨1, d, s, [Event.read PCA9541_CONTROL ((s.ctl % 256 : Nat) : Int)]⟩ := by
  have hrd : chipEnv.reg_read s PCA9541_CONTROL = (((s.ctl % 256 : Nat) : Int), s) := rfl
  have hn : ¬ (((s.ctl % 256 : Nat) : Int) < 0) := by omega
  simp only [pca9541_arbitrate, hrd, hn, hb, hm, if_true, if_false, chipEnv_write,
    Bool.false_eq_true]
  split_ifs <;> first | contradiction | simp [chipStore, clearByte]

/-- Claim from an off and owned byte: the chip then reads on and owned. -/
theorem claim_owned_byte (r : Fin 256) :
    busoff ((r : Nat) : Int) = true → mybus ((r : Nat) : Int) = true →
      busoff ((chipStore r (claimByte r) % 256 : Nat) : Int) = false ∧
      mybus ((chipStore r (claimByte r) % 256 : Nat) : Int) = true := by
  revert r
  set_option maxRecDepth 100000 in decide

/-- Claim from an off and not owned byte: the chip then reads off and owned. -/
theorem claim_free_byte (r : Fin 256) :
    busoff ((r : Nat) : Int) = true → mybus ((r : Nat) : Int) = false →
      busoff ((chipStore r (claimByte r) % 256 : Nat) : Int) = true ∧
      mybus ((chipStore r (claimByte r) % 256 : Nat) : Int) = true := by
  revert r
  set_option maxRecDepth 100000 in decide

/-- After the owner step the chip reads on and owned with `NTESTON` and
`BUSINIT` clear. -/
theorem owner_byte (r : Fin 256) :
    busoff ((r : Nat) : Int) = false → mybus ((r : Nat) : Int) = true →
      (((r : Nat) : Int) &&& (PCA9541_CTL_NTESTON ||| PCA9541_CTL_BUSINIT) != 0) = true →
      busoff ((chipStore r (clearByte r) % 256 : Nat) : Int) = false ∧
      mybus ((chipStore r (clearByte r) % 256 : Nat) : Int) = true ∧
      ((chipStore r (clearByte r) % 256 : Nat) : Int) &&&
        (PCA9541_CTL_NTESTON ||| PCA9541_CTL_BUSINIT) = 0 := by
  revert r
  set_option maxRecDepth 100000 in decide

/-- The delays of two event lists in sequence. -/
theorem delays_append (a b : List Event) : delays (a ++ b) = delays a ++ delays b := by
  simp [delays, List.filter_append]

/-- One iteration of the polling loop on the `Chip` world from an off state,
within the deadline: claim, short delay, go round. -/
theorem chip_loop_off (timeout n : Nat) (d : pca9541) (s : Chip)
    (hb : busoff ((s.ctl % 256 : Nat) : Int) = true)
    (ht : time_is_after_eq_jiffies ((s.clock + 50) % ULONG) timeout = true) :
    pca9541_select_loop chipEnv timeout (n + 1) d s =
      (pca9541_select_loop chipEnv timeout n { d with select_timeout := SELECT_DELAY_SHORT }
        ⟨chipStore (s.ctl % 256) (claimByte (s.ctl % 256)), s.istat, s.clock + 50⟩).map fun o =>
        { o with trace :=
            [Event.read PCA9541_CONTROL ((s.ctl % 256 : Nat) : Int),
             Event.read PCA9541_ISTAT ((s.istat % 128 : Nat) : Int),
             Event.write PCA9541_CONTROL (claimByte (s.ctl % 256)) 0] ++
            [Event.udelay 50, Event.timeout_check true] ++ o.trace } := by
  have hs := chip_step_off d s hb
  have hd : select_delay chipEnv { d with select_timeout := SELECT_DELAY_SHORT }
      { s with ctl := chipStore (s.ctl % 256) (claimByte (s.ctl % 256)) } =
      (⟨chipStore (s.ctl % 256) (claimByte (s.ctl % 256)), s.istat, s.clock + 50⟩,
        Event.udelay 50) := rfl
  rw [select_loop_continue chipEnv timeout n d s (by rw [hs]) (by rw [hs, hd]; exact ht)]
  rw [hs, hd]

/-- The owner step on the `Chip` world ends the call with `0`, leaves the bus
on and owned and the stray bits clear, and performs no delay. -/
theorem chip_loop_owned (timeout n : Nat) (d : pca9541) (s : Chip)
    (hb : busoff ((s.ctl % 256 : Nat) : Int) = false)
    (hm : mybus ((s.ctl % 256 : Nat) : Int) = true) :
    ∃ o, pca9541_select_loop chipEnv timeout (n + 1) d s = some o ∧ o.ret = 0 ∧
      delays o.trace = [] ∧
      busoff ((o.st.ctl % 256 : Nat) : Int) = false ∧
      mybus ((o.st.ctl % 256 : Nat) : Int) = true ∧
      ((o.st.ctl % 256 : Nat) : Int) &&& (PCA9541_CTL_NTESTON ||| PCA9541_CTL_BUSINIT) = 0 := by
  have hs := chip_step_owned d s hb hm
  by_cases hstray : (((s.ctl % 256 : Nat) : Int) &&&
      (PCA9541_CTL_NTESTON ||| PCA9541_CTL_BUSINIT) != 0) = true
  · rw [if_pos hstray] at hs
    obtain ⟨f1, f2, f3⟩ := owner_byte ⟨s.ctl % 256, Nat.mod_lt _ (by norm_num)⟩ hb hm hstray
    rw [select_loop_done chipEnv timeout n d s (by rw [hs]), hs]
    exact ⟨_, rfl, rfl, rfl, f1, f2, f3⟩
  · rw [if_neg hstray] at hs
    rw [select_loop_done chipEnv timeout n d s (by rw [hs]), hs]
    refine ⟨_, rfl, rfl, rfl, hb, hm, ?_⟩
    simpa using hstray

/-- Acquire on the `Chip` world from a state whose bus is off: the loop returns
`0` after one short delay if the byte is owned and after two if it is not,
without any long delay, and leaves the bus on and owned with the stray bits
clear. -/
theorem chip_loop_acquire (t0 n : Nat) (d : pca9541) (s : Chip)
    (h0 : t0 ≤ s.clock) (h1 : s.clock + 100 ≤ t0 + 250000)
    (hb : busoff ((s.ctl % 256 : Nat) : Int) = true) :
    ∃ o, pca9541_select_loop chipEnv ((t0 % ULONG + 250000) % ULONG) (n + 3) d s = some o ∧
      o.ret = 0 ∧
      delays o.trace = (if mybus ((s.ctl % 256 : Nat) : Int) = true then [Event.udelay 50]
        else [Event.udelay 50, Event.udelay 50]) ∧
      busoff ((o.st.ctl % 256 : Nat) : Int) = false ∧
      mybus ((o.st.ctl % 256 : Nat) : Int) = true ∧
      ((o.st.ctl % 256 : Nat) : Int) &&& (PCA9541_CTL_NTESTON ||| PCA9541_CTL_BUSINIT) = 0 := by
  have hlt : s.ctl % 256 < 256 := Nat.mod_lt _ (by norm_num)
  have ht1 : time_is_after_eq_jiffies ((s.clock + 50) % ULONG)
      ((t0 % ULONG + 250000) % ULONG) = true := by
    rw [time_after_eq_deadline t0 (s.clock + 50) 250000 (by norm_num) (by omega) (by omega)]
    simp only [decide_eq_true_eq]; omega
  have ht2 : time_is_after_eq_jiffies ((s.clock + 50 + 50) % ULONG)
      ((t0 % ULONG + 250000) % ULONG) = true := by
    rw [time_after_eq_deadline t0 (s.clock + 50 + 50) 250000 (by norm_num) (by omega)
      (by omega)]
    simp only [decide_eq_true_eq]; omega
  rw [chip_loop_off _ (n + 2) d s hb ht1]
  by_cases hm : mybus ((s.ctl % 256 : Nat) : Int) = true
  · obtain ⟨f1, f2⟩ := claim_owned_byte ⟨s.ctl % 256, hlt⟩ hb hm
    obtain ⟨o, e1, e2, e3, e4, e5, e6⟩ := chip_loop_owned ((t0 % ULONG + 250000) % ULONG)
      (n + 1) { d with select_timeout := SELECT_DELAY_SHORT }
      ⟨chipStore (s.ctl % 256) (claimByte (s.ctl % 256)), s.istat, s.clock + 50⟩ f1 f2
    rw [e1]
    refine ⟨_, rfl, e2, ?_, e4, e5, e6⟩
    rw [if_pos hm]
    simp only [delays_append, e3, List.append_nil]
    rfl
  · have hm2 : mybus ((s.ctl % 256 : Nat) : Int) = false := by simpa using hm
    obtain ⟨f1, f2⟩ := claim_free_byte ⟨s.ctl % 256, hlt⟩ hb hm2
    rw [chip_loop_off _ (n + 1) { d with select_timeout := SELECT_DELAY_SHORT }
      ⟨chipStore (s.ctl % 256) (claimByte (s.ctl % 256)), s.istat, s.clock + 50⟩ f1 ht2]
    have hlt2 : chipStore (s.ctl % 256) (claimByte (s.ctl % 256)) % 256 < 256 :=
      Nat.mod_lt _ (by norm_num)
    obtain ⟨g1, g2⟩ := claim_owned_byte
      ⟨chipStore (s.ctl % 256) (claimByte (s.ctl % 256)) % 256, hlt2⟩ f1 f2
    obtain ⟨o, e1, e2, e3, e4, e5, e6⟩ := chip_loop_owned ((t0 % ULONG + 250000) % ULONG) n
      { d with select_timeout := SELECT_DELAY_SHORT }
      ⟨chipStore (chipStore (s.ctl % 256) (claimByte (s.ctl % 256)) % 256)
        (claimByte (chipStore (s.ctl % 256) (claimByte (s.ctl % 256)) % 256)), s.istat,
        s.clock + 50 + 50⟩ g1 g2
    rw [e1]
    refine ⟨_, rfl, e2, ?_, e4, e5, e6⟩
    rw [if_neg hm]
    simp only [Option.map_some', delays_append, e3, List.append_nil]
    rfl

/-- Acquire on the `Chip` world from a state whose bus reads off. -/
theorem chip_acquire (n : Nat) (d : pca9541) (s : Chip)
    (hb : busoff (chipEnv.reg_read s PCA9541_CONTROL).1 = true) :
    ∃ o, pca9541_select_chan chipEnv 1000000 (n + 3) d s = some o ∧ o.ret = 0 ∧
      delays o.trace = (if mybus (chipEnv.reg_read s PCA9541_CONTROL).1 = true
        then [Event.udelay 50] else [Event.udelay 50, Event.udelay 50]) ∧
      busoff (chipEnv.reg_read o.st PCA9541_CONTROL).1 = false ∧
      mybus (chipEnv.reg_read o.st PCA9541_CONTROL).1 = true ∧
      (chipEnv.reg_read o.st PCA9541_CONTROL).1 &&&
        (PCA9541_CTL_NTESTON ||| PCA9541_CTL_BUSINIT) = 0 := by
  have hA : ARB2_TIMEOUT 1000000 = 250000 := by decide
  have hj : chipEnv.jiffies s = s.clock % ULONG := rfl
  simp only [pca9541_select_chan, hA, hj]
  exact chip_loop_acquire s.clock n _ s (le_refl _) (by omega) hb

/-- Release from an on and owned byte: the chip then reads off. -/
theorem release_byte (r : Fin 256) :
    busoff ((r : Nat) : Int) = false → mybus ((r : Nat) : Int) = true →
      busoff ((chipStore r (releaseByte r) % 256 : Nat) : Int) = true := by
  revert r
  set_option maxRecDepth 100000 in decide

/-- Release on the `Chip` world from a state that reads on and owned: one
write, after which the bus reads off. -/
theorem chip_release (d : pca9541) (s : Chip)
    (hb : busoff (chipEnv.reg_read s PCA9541_CONTROL).1 = false)
    (hm : mybus (chipEnv.reg_read s PCA9541_CONTROL).1 = true) :
    (pca9541_release_chan chipEnv d s).ret = 0 ∧
    busoff (chipEnv.reg_read (pca9541_release_chan chipEnv d s).st PCA9541_CONTROL).1 = true := by
  have hrd : chipEnv.reg_read s PCA9541_CONTROL = (((s.ctl % 256 : Nat) : Int), s) := rfl
  rw [hrd] at hb hm
  have h0 : (0 : Int) ≤ ((s.ctl % 256 : Nat) : Int) := by omega
  have hf := release_byte ⟨s.ctl % 256, Nat.mod_lt _ (by norm_num)⟩ hb hm
  refine ⟨rfl, ?_⟩
  simp only [pca9541_release_chan, pca9541_release_bus, hrd, hb, hm, h0, decide_True,
    Bool.not_false, Bool.and_self, if_true, chipEnv_write]
  simpa [chipStore, releaseByte, chipEnv] using hf

/-- C9 (amended). SimpleBit fast path on the `Chip` world (status register
without `NMYTEST`, peer bits fixed, other control bits read back as written):
for every initial control byte whose bus is off and every fuel of at least 3,
`pca9541_select_chan` returns `0`; its delays are one short delay when the byte
is owned (`MYBUS` and `NMYBUS` equal) and two short delays when it is not;
there is no long delay. -/
theorem C9_fast_path (c i t n : Nat) (d : pca9541) (hc : c < 256)
    (hb : busoff ((c : Nat) : Int) = true) :
    ∃ o, pca9541_select_chan chipEnv 1000000 (n + 3) d ⟨c, i, t⟩ = some o ∧ o.ret = 0 ∧
      delays o.trace = (if mybus ((c : Nat) : Int) = true then [Event.udelay 50]
        else [Event.udelay 50, Event.udelay 50]) := by
  have hrd : (chipEnv.reg_read ⟨c, i, t⟩ PCA9541_CONTROL).1 = ((c : Nat) : Int) := by
    show (((c % 256 : Nat) : Int)) = _
    rw [Nat.mod_eq_of_lt hc]
  obtain ⟨o, h1, h2, h3, -⟩ := chip_acquire n d ⟨c, i, t⟩ (by rw [hrd]; exact hb)
  rw [hrd] at h3
  exact ⟨o, h1, h2, h3⟩

/-- Witness for C9 (amended): initial control byte `0x0c`, off and owned. -/
theorem C9_fast_path_witness :
    12 < 256 ∧ busoff ((12 : Nat) : Int) = true ∧
    ∃ o, pca9541_select_chan chipEnv 1000000 (0 + 3) ⟨0, 0⟩ ⟨12, 0, 0⟩ = some o ∧ o.ret = 0 ∧
      delays o.trace = (if mybus ((12 : Nat) : Int) = true then [Event.udelay 50]
        else [Event.udelay 50, Event.udelay 50]) :=
  ⟨by decide, by decide, C9_fast_path 12 0 0 0 ⟨0, 0⟩ (by decide) (by decide)⟩

/-- C9 (counterexample). From the initial control byte `0x01` (bus off, `MYBUS`
set and `NMYBUS` clear, so not owned) acquire returns `0` after two short
delays: the first step takes ownership, the second turns the bus on. -/
theorem C9_counterexample :
    busoff 1 = true ∧
    (pca9541_select_chan chipEnv 1000000 3 ⟨0, 0⟩ ⟨1, 0, 0⟩).map
        (fun o => (o.ret, o.trace)) =
      some (0, [Event.read 1 1, Event.read 2 0, Event.write 1 128 0, Event.udelay 50,
        Event.timeout_check true, Event.read 1 128, Event.read 2 0, Event.write 1 132 0,
        Event.udelay 50, Event.timeout_check true, Event.read 1 132, Event.write 1 4 0]) := by
  constructor <;> decide

/-- C10. SimpleBit round trip on the `Chip` world: for every initial control
byte whose bus is off, acquire returns `0`, release returns and leaves the bus
reading off, and a second acquire returns `0`; after each acquire the control
register reads with `NTESTON` and `BUSINIT` clear. -/
theorem C10_round_trip (c i t n : Nat) (d : pca9541) (hc : c < 256)
    (hb : busoff ((c : Nat) : Int) = true) :
    ∃ o1 o3, pca9541_select_chan chipEnv 1000000 (n + 3) d ⟨c, i, t⟩ = some o1 ∧
      o1.ret = 0 ∧
      (chipEnv.reg_read o1.st PCA9541_CONTROL).1 &&&
        (PCA9541_CTL_NTESTON ||| PCA9541_CTL_BUSINIT) = 0 ∧
      (pca9541_release_chan chipEnv o1.data o1.st).ret = 0 ∧
      busoff (chipEnv.reg_read (pca9541_release_chan chipEnv o1.data o1.st).st
        PCA9541_CONTROL).1 = true ∧
      pca9541_select_chan chipEnv 1000000 (n + 3)
        (pca9541_release_chan chipEnv o1.data o1.st).data
        (pca9541_release_chan chipEnv o1.data o1.st).st = some o3 ∧
      o3.ret = 0 ∧
      (chipEnv.reg_read o3.st PCA9541_CONTROL).1 &&&
        (PCA9541_CTL_NTESTON ||| PCA9541_CTL_BUSINIT) = 0 := by
  have hrd : (chipEnv.reg_read ⟨c, i, t⟩ PCA9541_CONTROL).1 = ((c : Nat) : Int) := by
    show (((c % 256 : Nat) : Int)) = _
    rw [Nat.mod_eq_of_lt hc]
  obtain ⟨o1, a1, a2, -, a4, a5, a6⟩ := chip_acquire n d ⟨c, i, t⟩ (by rw [hrd]; exact hb)
  obtain ⟨b1, b2⟩ := chip_release o1.data o1.st a4 a5
  obtain ⟨o3, c1, c2, -, -, -, c6⟩ := chip_acquire n
    (pca9541_release_chan chipEnv o1.data o1.st).data
    (pca9541_release_chan chipEnv o1.data o1.st).st b2
  exact ⟨o1, o3, a1, a2, a6, b1, b2, c1, c2, c6⟩

/-- Witness for C10: initial control byte `0x0e` (bus off, `NMYBUS` set). -/
theorem C10_round_trip_witness :
    14 < 256 ∧ busoff ((14 : Nat) : Int) = true ∧
    ∃ o1 o3, pca9541_select_chan chipEnv 1000000 (0 + 3) ⟨0, 0⟩ ⟨14, 0, 0⟩ = some o1 ∧
      o1.ret = 0 ∧
      (chipEnv.reg_read o1.st PCA9541_CONTROL).1 &&&
        (PCA9541_CTL_NTESTON ||| PCA9541_CTL_BUSINIT) = 0 ∧
      (pca9541_release_chan chipEnv o1.data o1.st).ret = 0 ∧
      busoff (chipEnv.reg_read (pca9541_release_chan chipEnv o1.data o1.st).st
        PCA9541_CONTROL).1 = true ∧
      pca9541_select_chan chipEnv 1000000 (0 + 3)
        (pca9541_release_chan chipEnv o1.data o1.st).data
        (pca9541_release_chan chipEnv o1.data o1.st).st = some o3 ∧
      o3.ret = 0 ∧
      (chipEnv.reg_read o3.st PCA9541_CONTROL).1 &&&
        (PCA9541_CTL_NTESTON ||| PCA9541_CTL_BUSINIT) = 0 :=
  ⟨by decide, by decide, C10_round_trip 14 0 0 0 ⟨0, 0⟩ (by decide) (by decide)⟩

/-! ## Release-permission flag -/

/-- C11 (amended). Let the stored flag differ from `-1`, that is, let it have
been set. `pca9641_setmuxflag` still returns `0`: for the recorded binding it
stores the new flag value over the old one, for any other identifier it leaves
`pca_flag` unchanged. `pca9641_recordflag` returns `-1` and leaves `pca_flag`,
flag and binding identifier, unchanged. -/
theorem C11_flag_updates (pf : i2c_mux_flag) (nr flag : Int) (name : String)
    (hset : pf.flag ≠ -1) :
    (pca9641_setmuxflag pf nr flag).1 = 0 ∧
    (pca9641_setmuxflag pf nr flag).2 =
      (if pf.nr = nr then { pf with flag := flag } else pf) ∧
    pca9641_recordflag pf nr name = (-1, pf) := by
  refine ⟨rfl, rfl, ?_⟩
  simp only [pca9641_recordflag]
  rw [if_pos hset]

/-- Witness for C11 (amended): binding 3 recorded, flag already set to `1`. -/
theorem C11_flag_updates_witness :
    (1 : Int) ≠ -1 ∧
    (pca9641_setmuxflag { nr := 3, name := "", flag := 1 } 3 0).1 = 0 ∧
    (pca9641_setmuxflag { nr := 3, name := "", flag := 1 } 3 0).2 =
      (if (3 : Int) = 3 then { nr := 3, name := "", flag := 0 }
        else { nr := 3, name := "", flag := 1 }) ∧
    pca9641_recordflag { nr := 3, name := "", flag := 1 } 3 "i2c-3" =
      (-1, { nr := 3, name := "", flag := 1 }) :=
  ⟨by decide, C11_flag_updates { nr := 3, name := "", flag := 1 } 3 0 "i2c-3" (by decide)⟩

/-- C11 (counterexample). With binding 3 recorded, the flag is set to `1` and
then set again to `0`: the second call returns `0` (success) and overwrites the
stored flag. -/
theorem C11_counterexample :
    (pca9641_setmuxflag (pca9641_setmuxflag { nr := 3, name := "", flag := -1 } 3 1).2 3 0).1
        = 0 ∧
    (pca9641_setmuxflag { nr := 3, name := "", flag := -1 } 3 1).2.flag = 1 ∧
    (pca9641_setmuxflag (pca9641_setmuxflag { nr := 3, name := "", flag := -1 } 3 1).2
        3 0).2.flag = 0 := by
  decide

/-! ## The transition table -/

/-- C12 (amended). For every control byte `C` the lookup
`pca9541_control[C & 0xF]` is within the table and yields one nibble. For every
`C` whose bus is off and which is owned, applying the table again to the nibble
that results from the claim (peer bits kept) gives the same claim; for every
`C` whose bus is off this holds from the second application on. -/
theorem C12_claim_encoding (c : Fin 256) :
    (((c : Nat) : Int) &&& 0x0f).toNat < pca9541_control.length ∧
    0 ≤ pca9541_control_at (((c : Nat) : Int) &&& 0x0f) ∧
    pca9541_control_at (((c : Nat) : Int) &&& 0x0f) < 16 ∧
    (busoff ((c : Nat) : Int) = true → mybus ((c : Nat) : Int) = true →
      pca9541_control_at (claimed (((c : Nat) : Int) &&& 0x0f) &&& 0x0f) =
        pca9541_control_at (((c : Nat) : Int) &&& 0x0f)) ∧
    (busoff ((c : Nat) : Int) = true →
      pca9541_control_at (claimed (claimed (((c : Nat) : Int) &&& 0x0f)) &&& 0x0f) =
        pca9541_control_at (claimed (((c : Nat) : Int) &&& 0x0f) &&& 0x0f)) := by
  revert c
  set_option maxRecDepth 100000 in decide

/-- C12 (counterexample). The control byte `0x01` has the bus off; the table
gives `pca9541_control[1] = 0`, and applied to that value it gives
`pca9541_control[0] = 4`, a different claim. -/
theorem C12_counterexample :
    busoff 1 = true ∧ pca9541_control_at (1 &&& 0x0f) = 0 ∧
    pca9541_control_at (pca9541_control_at (1 &&& 0x0f) &&& 0x0f) = 4 := by
  decide

/-! ## SimpleBit: the branches of one step -/

/-- Clearing the stray bits of a byte leaves none of them set. -/
theorem clear_stray_byte (c : Fin 256) :
    ((u8 (((c : Nat) : Int) &&& ~~~(PCA9541_CTL_NTESTON ||| PCA9541_CTL_BUSINIT)) : Nat) : Int)
      &&& (PCA9541_CTL_NTESTON ||| PCA9541_CTL_BUSINIT) = 0 := by
  revert c
  set_option maxRecDepth 100000 in decide

/-- C13. SimpleBit step, owner branch. When the control read succeeds with a
byte `C` that is on and owned, `pca9541_arbitrate` returns `1`; its events are
that read, followed by one control write of `C & ~(NTESTON | BUSINIT)` exactly
when `C` has one of the two bits set; the last control value read or written
has both bits clear. -/
theorem C13_owner_branch {σ : Type} (env : Env σ) (data : pca9541) (s : σ) (C : Int)
    (hC : (env.reg_read s PCA9541_CONTROL).1 = C) (h0 : 0 ≤ C) (h1 : C < 256)
    (hb : busoff C = false) (hm : mybus C = true) :
    (pca9541_arbitrate env data s).ret = 1 ∧
    (pca9541_arbitrate env data s).trace = Event.read PCA9541_CONTROL C ::
      (if C &&& (PCA9541_CTL_NTESTON ||| PCA9541_CTL_BUSINIT) != 0 then
        [Event.write PCA9541_CONTROL
          (u8 (C &&& ~~~(PCA9541_CTL_NTESTON ||| PCA9541_CTL_BUSINIT)))
          (env.reg_write (env.reg_read s PCA9541_CONTROL).2 PCA9541_CONTROL
            (u8 (C &&& ~~~(PCA9541_CTL_NTESTON ||| PCA9541_CTL_BUSINIT)))).1]
      else []) ∧
    (if C &&& (PCA9541_CTL_NTESTON ||| PCA9541_CTL_BUSINIT) != 0 then
        ((u8 (C &&& ~~~(PCA9541_CTL_NTESTON ||| PCA9541_CTL_BUSINIT)) : Nat) : Int)
      else C) &&& (PCA9541_CTL_NTESTON ||| PCA9541_CTL_BUSINIT) = 0 := by
  have hn : ¬ C < 0 := by omega
  have hclr := byte_cases (fun C => ((u8 (C &&&
      ~~~(PCA9541_CTL_NTESTON ||| PCA9541_CTL_BUSINIT)) : Nat) : Int)
      &&& (PCA9541_CTL_NTESTON ||| PCA9541_CTL_BUSINIT) = 0) clear_stray_byte C h0 h1
  subst hC
  simp only [pca9541_arbitrate, hn, hb, hm, if_true, if_false, Bool.false_eq_true]
  by_cases hs : ((env.reg_read s PCA9541_CONTROL).1 &&&
      (PCA9541_CTL_NTESTON ||| PCA9541_CTL_BUSINIT) != 0) = true
  · simp only [hs, if_true]
    exact ⟨trivial, trivial, hclr⟩
  · simp only [hs, if_false, Bool.false_eq_true]
    refine ⟨trivial, trivial, ?_⟩
    simpa using hs

/-- Witness for C13: the control register reads `0x84` (on, owned, `NTESTON`
set). -/
theorem C13_owner_branch_witness :
    ((heldEnv 132).reg_read 0 PCA9541_CONTROL).1 = 132 ∧ (0 : Int) ≤ 132 ∧ (132 : Int) < 256 ∧
    busoff 132 = false ∧ mybus 132 = true ∧
    (pca9541_arbitrate (heldEnv 132) ⟨0, 0⟩ 0).ret = 1 ∧
    (pca9541_arbitrate (heldEnv 132) ⟨0, 0⟩ 0).trace =
      [Event.read PCA9541_CONTROL 132, Event.write PCA9541_CONTROL 4 0] :=
  ⟨rfl, by decide, by decide, by decide, by decide,
   (C13_owner_branch (heldEnv 132) ⟨0, 0⟩ 0 132 rfl (by decide) (by decide) (by decide)
     (by decide)).1,
   (C13_owner_branch (heldEnv 132) ⟨0, 0⟩ 0 132 rfl (by decide) (by decide) (by decide)
     (by decide)).2.1⟩

/-- With less than `2 ^ 63` ticks between them, the wrap-safe test "the tick
counter has reached the deadline `t0 + D`" is the comparison of the clocks,
the deadline itself included. -/
theorem time_before_eq_deadline (t0 t D : Nat) (hD : D < 2 ^ 63) (h0 : t0 ≤ t)
    (h1 : t < t0 + 2 ^ 63) :
    time_is_before_eq_jiffies (t % ULONG) ((t0 % ULONG + D) % ULONG) = decide (t0 + D ≤ t) := by
  simp only [time_is_before_eq_jiffies, time_after_eq, ULONG]
  norm_num at hD h1 ⊢
  by_cases h : t0 + D ≤ t
  · simp only [h, iff_true]
    omega
  · simp only [h, iff_false]
    omega

/-- C15 (amended). SimpleBit step, back-off branch, in the clock model with
`arb_timeout` armed at `t0` to `t0 + 125 ms`. When the control read succeeds
with a byte `C` whose bus is off, the status read shows `NMYTEST` set and the
clock has not reached `t0 + 125 ms`, `pca9541_arbitrate` performs no register
write, sets the retry delay to `SELECT_DELAY_LONG * 2`, 2000, and returns `0`. -/
theorem C15_back_off_branch {σ : Type} (env : Env σ) (clock : σ → Nat)
    (hclk : SleepClock env clock) (data : pca9541) (s : σ) (t0 : Nat) (C I : Int)
    (harm : data.arb_timeout = (t0 % ULONG + ARB_TIMEOUT 1000000) % ULONG)
    (ht0 : t0 ≤ clock s) (ht1 : clock s < t0 + 125000)
    (hC : (env.reg_read s PCA9541_CONTROL).1 = C)
    (hI : (env.reg_read (env.reg_read s PCA9541_CONTROL).2 PCA9541_ISTAT).1 = I)
    (h0 : 0 ≤ C) (hb : busoff C = true) (hi : I &&& PCA9541_ISTAT_NMYTEST ≠ 0) :
    (pca9541_arbitrate env data s).ret = 0 ∧
    (pca9541_arbitrate env data s).data.select_timeout = 2000 ∧
    (pca9541_arbitrate env data s).trace =
      [Event.read PCA9541_CONTROL C, Event.read PCA9541_ISTAT I, Event.arb_check false] := by
  have hn : ¬ C < 0 := by omega
  have hA : ARB_TIMEOUT 1000000 = 125000 := by decide
  have hck : clock (env.reg_read (env.reg_read s PCA9541_CONTROL).2 PCA9541_ISTAT).2 =
      clock s := by rw [hclk.read_clock, hclk.read_clock]
  have htm := time_before_eq_deadline t0 (clock s) 125000 (by norm_num) ht0 (by omega)
  have hdl : ¬ t0 + 125000 ≤ clock s := by omega
  subst hC hI
  simp only [pca9541_arbitrate, hn, hb, if_true, if_false, harm, hA, hclk.jiffies_eq, hck, htm,
    beq_iff_eq, decide_eq_true_eq, hi, hdl]
  exact ⟨trivial, rfl, trivial⟩

/-- Witness for C15 (amended): every register reads `0x80` (bus off, `NMYTEST`
set), the clock stands at `t0`. -/
theorem C15_back_off_branch_witness :
    SleepClock (heldEnv 128) (fun s => s) ∧ (0 : Nat) ≤ 0 ∧ 0 < 0 + 125000 ∧
    (0 : Int) ≤ 128 ∧ busoff 128 = true ∧ (128 : Int) &&& PCA9541_ISTAT_NMYTEST ≠ 0 ∧
    (pca9541_arbitrate (heldEnv 128) ⟨0, (0 % ULONG + ARB_TIMEOUT 1000000) % ULONG⟩ 0).ret = 0 ∧
    (pca9541_arbitrate (heldEnv 128) ⟨0, (0 % ULONG + ARB_TIMEOUT 1000000) % ULONG⟩
      0).data.select_timeout = 2000 ∧
    (pca9541_arbitrate (heldEnv 128) ⟨0, (0 % ULONG + ARB_TIMEOUT 1000000) % ULONG⟩ 0).trace =
      [Event.read PCA9541_CONTROL 128, Event.read PCA9541_ISTAT 128, Event.arb_check false] :=
  ⟨heldEnv_clock 128, le_refl _, by norm_num, by decide, by decide, by decide,
   C15_back_off_branch (heldEnv 128) (fun s => s) (heldEnv_clock 128)
     ⟨0, (0 % ULONG + ARB_TIMEOUT 1000000) % ULONG⟩ 0 0 128 128 rfl (le_refl _) (by norm_num)
     rfl rfl (by decide) (by decide) (by decide)⟩

/-- C15 (counterexample). Control and status read `0x80` (bus off, `NMYTEST`
set) before the force deadline: the step returns `0` without a write and
leaves the retry delay at 2000, not at 1000. -/
theorem C15_counterexample :
    (pca9541_arbitrate (scriptEnv 0) ⟨0, 125000⟩ ⟨[128, 128], [], 0⟩).ret = 0 ∧
    (pca9541_arbitrate (scriptEnv 0) ⟨0, 125000⟩ ⟨[128, 128], [], 0⟩).trace =
      [Event.read 1 128, Event.read 2 128, Event.arb_check false] ∧
    (pca9541_arbitrate (scriptEnv 0) ⟨0, 125000⟩ ⟨[128, 128], [], 0⟩).data.select_timeout
      = 2000 := by
  decide

/-- For a byte, `busoff` holds exactly when `BUSON` and `NBUSON` agree. -/
theorem busoff_iff_bits (C : Int) (h0 : 0 ≤ C) (h1 : C < 256) :
    busoff C = true ↔ (C &&& PCA9541_CTL_BUSON ≠ 0 ↔ C &&& PCA9541_CTL_NBUSON ≠ 0) := by
  refine byte_cases (fun C => busoff C = true ↔
    (C &&& PCA9541_CTL_BUSON ≠ 0 ↔ C &&& PCA9541_CTL_NBUSON ≠ 0)) ?_ C h0 h1
  set_option maxRecDepth 100000 in decide

/-- For a byte, `mybus` holds exactly when `MYBUS` and `NMYBUS` agree. -/
theorem mybus_iff_bits (C : Int) (h0 : 0 ≤ C) (h1 : C < 256) :
    mybus C = true ↔ (C &&& PCA9541_CTL_MYBUS ≠ 0 ↔ C &&& PCA9541_CTL_NMYBUS ≠ 0) := by
  refine byte_cases (fun C => mybus C = true ↔
    (C &&& PCA9541_CTL_MYBUS ≠ 0 ↔ C &&& PCA9541_CTL_NMYBUS ≠ 0)) ?_ C h0 h1
  set_option maxRecDepth 100000 in decide

/-- C17 (amended). Bus-off predicate of the SimpleBit step. When the control
read succeeds with a byte `C`, `pca9541_arbitrate` takes the branch that reads
the status register exactly when `BUSON` (bit 2) and `NBUSON` (bit 3) of `C`
are both set or both clear. -/
theorem C17_busoff_predicate {σ : Type} (env : Env σ) (data : pca9541) (s : σ) (C : Int)
    (hC : (env.reg_read s PCA9541_CONTROL).1 = C) (h0 : 0 ≤ C) (h1 : C < 256) :
    (∃ I, Event.read PCA9541_ISTAT I ∈ (pca9541_arbitrate env data s).trace) ↔
      (C &&& PCA9541_CTL_BUSON ≠ 0 ↔ C &&& PCA9541_CTL_NBUSON ≠ 0) := by
  rw [← busoff_iff_bits C h0 h1]
  have hn : ¬ C < 0 := by omega
  subst hC
  by_cases hb : busoff (env.reg_read s PCA9541_CONTROL).1 = true
  · refine iff_of_true
      ⟨(env.reg_read (env.reg_read s PCA9541_CONTROL).2 PCA9541_ISTAT).1, ?_⟩ hb
    simp only [pca9541_arbitrate, hn, hb, if_true, if_false]
    split_ifs <;> simp
  · have hbf : busoff (env.reg_read s PCA9541_CONTROL).1 = false := by simpa using hb
    refine iff_of_false ?_ hb
    rintro ⟨I, hI⟩
    simp only [pca9541_arbitrate, hn, hbf, if_false, Bool.false_eq_true] at hI
    split_ifs at hI <;> simp at hI

/-- Witness for C17 (amended): the control register reads `0x0c`. -/
theorem C17_busoff_predicate_witness :
    ((heldEnv 12).reg_read 0 PCA9541_CONTROL).1 = 12 ∧ (0 : Int) ≤ 12 ∧ (12 : Int) < 256 ∧
    ((∃ I, Event.read PCA9541_ISTAT I ∈ (pca9541_arbitrate (heldEnv 12) ⟨0, 0⟩ 0).trace) ↔
      ((12 : Int) &&& PCA9541_CTL_BUSON ≠ 0 ↔ (12 : Int) &&& PCA9541_CTL_NBUSON ≠ 0)) :=
  ⟨rfl, by decide, by decide,
   C17_busoff_predicate (heldEnv 12) ⟨0, 0⟩ 0 12 rfl (by decide) (by decide)⟩

/-- C17 (counterexample). With `BUSON` and `NBUSON` both clear (`C = 0x00`) the
step reads the status register; with exactly one of them set (`C = 0x04`) it
does not. -/
theorem C17_counterexample :
    (pca9541_arbitrate (scriptEnv 0) ⟨0, 0⟩ ⟨[0, 0], [], 0⟩).trace =
      [Event.read 1 0, Event.read 2 0, Event.write 1 132 0] ∧
    (pca9541_arbitrate (scriptEnv 0) ⟨0, 0⟩ ⟨[4, 0], [], 0⟩).trace = [Event.read 1 4] := by
  decide

/-- C18 (amended). Ownership predicate of the SimpleBit step. When the control
read succeeds with a byte `C` whose bus is not off, `pca9541_arbitrate` returns
`1` exactly when `MYBUS` (bit 0) and `NMYBUS` (bit 1) of `C` are both set or
both clear, and returns `0` for every other such `C`. -/
theorem C18_ownership_predicate {σ : Type} (env : Env σ) (data : pca9541) (s : σ) (C : Int)
    (hC : (env.reg_read s PCA9541_CONTROL).1 = C) (h0 : 0 ≤ C) (h1 : C < 256)
    (hb : busoff C = false) :
    ((pca9541_arbitrate env data s).ret = 1 ↔
      (C &&& PCA9541_CTL_MYBUS ≠ 0 ↔ C &&& PCA9541_CTL_NMYBUS ≠ 0)) ∧
    ((pca9541_arbitrate env data s).ret = 1 ∨ (pca9541_arbitrate env data s).ret = 0) := by
  rw [← mybus_iff_bits C h0 h1]
  have hn : ¬ C < 0 := by omega
  subst hC
  by_cases hm : mybus (env.reg_read s PCA9541_CONTROL).1 = true
  · simp only [pca9541_arbitrate, hn, hb, hm, if_true, if_false, Bool.false_eq_true]
    split_ifs <;> simp
  · have hmf : mybus (env.reg_read s PCA9541_CONTROL).1 = false := by simpa using hm
    simp only [pca9541_arbitrate, hn, hb, hmf, if_false, Bool.false_eq_true]
    split_ifs <;> simp

/-- Witness for C18 (amended): the control register reads `0x07`. -/
theorem C18_ownership_predicate_witness :
    ((heldEnv 7).reg_read 0 PCA9541_CONTROL).1 = 7 ∧ (0 : Int) ≤ 7 ∧ (7 : Int) < 256 ∧
    busoff 7 = false ∧
    (((pca9541_arbitrate (heldEnv 7) ⟨0, 0⟩ 0).ret = 1 ↔
      ((7 : Int) &&& PCA9541_CTL_MYBUS ≠ 0 ↔ (7 : Int) &&& PCA9541_CTL_NMYBUS ≠ 0)) ∧
    ((pca9541_arbitrate (heldEnv 7) ⟨0, 0⟩ 0).ret = 1 ∨
      (pca9541_arbitrate (heldEnv 7) ⟨0, 0⟩ 0).ret = 0)) :=
  ⟨rfl, by decide, by decide, by decide,
   C18_ownership_predicate (heldEnv 7) ⟨0, 0⟩ 0 7 rfl (by decide) (by decide) (by decide)⟩

/-- C18 (counterexample). The control byte `0x04` has the bus on and both
`MYBUS` and `NMYBUS` clear; the step returns `1` (acquired). -/
theorem C18_counterexample :
    busoff 4 = false ∧ (4 : Int) &&& PCA9541_CTL_MYBUS = 0 ∧
    (4 : Int) &&& PCA9541_CTL_NMYBUS = 0 ∧
    (pca9541_arbitrate (scriptEnv 0) ⟨0, 0⟩ ⟨[4], [], 0⟩).ret = 1 := by
  decide

/-! ## SimpleBit release -/

/-- The byte written by release: `0x04` when `NBUSON` is set in the byte read,
`0x00` otherwise. -/
theorem release_value_byte (c : Fin 256) :
    u8 ((((c : Nat) : Int) &&& PCA9541_CTL_NBUSON) >>> 1) =
      if ((c : Nat) : Int) &&& PCA9541_CTL_NBUSON = 0 then 0 else 4 := by
  revert c
  set_option maxRecDepth 100000 in decide

/-- C19. SimpleBit release. `pca9541_release_bus` reads the control register
once, as its first event, and never again. When that read succeeded with a
byte `C` that is on and owned, the one further event is a control write of
`(C & NBUSON) >> 1`, which is `0x04` when `NBUSON` is set in `C` and `0x00`
otherwise; in every other case, a failed read included, there is no further
event. -/
theorem C19_release_bus {σ : Type} (env : Env σ) (s : σ) (C : Int)
    (hC : (env.reg_read s PCA9541_CONTROL).1 = C) (h1 : C < 256) :
    (pca9541_release_bus env s).2 = Event.read PCA9541_CONTROL C ::
      (if 0 ≤ C ∧ busoff C = false ∧ mybus C = true then
        [Event.write PCA9541_CONTROL (if C &&& PCA9541_CTL_NBUSON = 0 then 0 else 4)
          (env.reg_write (env.reg_read s PCA9541_CONTROL).2 PCA9541_CONTROL
            (u8 ((C &&& PCA9541_CTL_NBUSON) >>> 1))).1]
      else []) ∧
    (0 ≤ C → u8 ((C &&& PCA9541_CTL_NBUSON) >>> 1) =
      if C &&& PCA9541_CTL_NBUSON = 0 then 0 else 4) := by
  have hv : 0 ≤ C → u8 ((C &&& PCA9541_CTL_NBUSON) >>> 1) =
      if C &&& PCA9541_CTL_NBUSON = 0 then 0 else 4 := fun h0 =>
    byte_cases (fun C => u8 ((C &&& PCA9541_CTL_NBUSON) >>> 1) =
      if C &&& PCA9541_CTL_NBUSON = 0 then 0 else 4) release_value_byte C h0 h1
  refine ⟨?_, hv⟩
  subst hC
  simp only [pca9541_release_bus]
  by_cases hcond : (0 ≤ (env.reg_read s PCA9541_CONTROL).1 ∧
      busoff (env.reg_read s PCA9541_CONTROL).1 = false ∧
      mybus (env.reg_read s PCA9541_CONTROL).1 = true)
  · obtain ⟨c0, cb, cm⟩ := hcond
    have hvv := hv c0
    simp only [c0, cb, cm, decide_True, Bool.not_false, Bool.and_self, if_true, and_self, hvv]
  · have hc2 : ¬ ((decide (0 ≤ (env.reg_read s PCA9541_CONTROL).1) &&
        !busoff (env.reg_read s PCA9541_CONTROL).1 &&
        mybus (env.reg_read s PCA9541_CONTROL).1) = true) := by
      intro h
      apply hcond
      simpa [and_assoc] using h
    rw [if_neg hc2, if_neg hcond]

/-- Witness for C19: the control register reads `0x0b` (on, owned, `NBUSON`
set), so release writes `0x04`. -/
theorem C19_release_bus_witness :
    ((heldEnv 11).reg_read 0 PCA9541_CONTROL).1 = 11 ∧ (11 : Int) < 256 ∧
    (pca9541_release_bus (heldEnv 11) 0).2 =
      [Event.read PCA9541_CONTROL 11, Event.write PCA9541_CONTROL 4 0] :=
  ⟨rfl, by decide,
   (C19_release_bus (heldEnv 11) 0 11 rfl (by decide)).1⟩

/-! ## LockRequestGrant: the bus-free branch of one step -/

/-- Bit pattern of a non-negative `int` below `2 ^ 32`. -/
theorem toU32_natCast (n : Nat) (h : n < 4294967296) : toU32 (n : Int) = n := by
  simp only [toU32]
  omega

/-- Or-ing an odd mask below `2 ^ 32` into any `int` and converting to `u8`
gives an odd byte, that is, a byte with bit 0 set. -/
theorem u8_lor_odd (x : Int) (m : Nat) (hm : m % 2 = 1) (hlt : m < 4294967296) :
    ((u8 (x ||| (m : Int)) : Nat) : Int) &&& 1 ≠ 0 := by
  have hx : toU32 x < 2 ^ 32 := by
    simp only [toU32]
    omega
  have hn : toU32 x ||| m < 2 ^ 32 := Nat.or_lt_two_pow hx (by norm_num; exact hlt)
  have hodd : (toU32 x ||| m) % 2 = 1 := by
    have h1 : (toU32 x ||| m).testBit 0 = true := by
      rw [Nat.testBit_or]
      have : m.testBit 0 = true := by
        rw [Nat.testBit_zero]; simpa using hm
      simp [this]
    rw [Nat.testBit_zero] at h1
    simpa using h1
  have hu : u8 (x ||| (m : Int)) % 2 = 1 ∧ u8 (x ||| (m : Int)) < 256 := by
    show u8 (ofU32 (toU32 x ||| toU32 (m : Int))) % 2 = 1 ∧ _ < 256
    rw [toU32_natCast m hlt]
    simp only [u8, ofU32]
    norm_num at hn
    split_ifs <;> omega
  obtain ⟨hu1, hu2⟩ := hu
  show ofU32 (toU32 ((u8 (x ||| (m : Int)) : Nat) : Int) &&& toU32 1) ≠ 0
  rw [toU32_natCast _ (by omega)]
  have h1 : toU32 1 = 1 := by decide
  rw [h1, Nat.and_one_is_mod, hu1]
  decide

/-! ## LockRequestGrant: the other branches of one step -/

/-- C22. The table `pca9541_control` implements the two-step arbitration. For
every nibble `x`, the entry is one of `0`, `1`, `4`, `5`, so it sets no bit but
`MYBUS` and `BUSON`. With `x' = (x & 0b1010) | pca9541_control[x]`: `x'` is
owned; if `x` is on then `x'` is on, and `x' = x` when `x` is on and owned; if
`x` is off and owned then `x'` is on; if `x` is off and not owned then `x'` is
off. After two transitions from any `x` the state is on and owned, and it is a
fixed point. -/
theorem C22_table_two_step (x : Fin 16) :
    (pca9541_control_at ((x : Nat) : Int) = 0 ∨ pca9541_control_at ((x : Nat) : Int) = 1 ∨
      pca9541_control_at ((x : Nat) : Int) = 4 ∨ pca9541_control_at ((x : Nat) : Int) = 5) ∧
    pca9541_control_at ((x : Nat) : Int) &&& (PCA9541_CTL_NMYBUS ||| PCA9541_CTL_NBUSON) = 0 ∧
    claimed ((x : Nat) : Int) =
      (((x : Nat) : Int) &&& 0x0a) ||| pca9541_control_at ((x : Nat) : Int) ∧
    mybus (claimed ((x : Nat) : Int)) = true ∧
    (busoff ((x : Nat) : Int) = false → busoff (claimed ((x : Nat) : Int)) = false) ∧
    (busoff ((x : Nat) : Int) = false → mybus ((x : Nat) : Int) = true →
      claimed ((x : Nat) : Int) = ((x : Nat) : Int)) ∧
    (busoff ((x : Nat) : Int) = true → mybus ((x : Nat) : Int) = true →
      busoff (claimed ((x : Nat) : Int)) = false) ∧
    (busoff ((x : Nat) : Int) = true → mybus ((x : Nat) : Int) = false →
      busoff (claimed ((x : Nat) : Int)) = true) ∧
    busoff (claimed (claimed ((x : Nat) : Int))) = false ∧
    mybus (claimed (claimed ((x : Nat) : Int))) = true ∧
    claimed (claimed (claimed ((x : Nat) : Int))) = claimed (claimed ((x : Nat) : Int)) := by
  revert x
  set_option maxRecDepth 100000 in decide

/-! ## SimpleBit: a failed control read ends the call -/

/-- A step whose control read fails does nothing else and returns the error. -/
theorem arbitrate_read_error {σ : Type} (env : Env σ) (data : pca9541) (s : σ) (e : Int)
    (hread : (env.reg_read s PCA9541_CONTROL).1 = e) (he : e < 0) :
    pca9541_arbitrate env data s =
      ⟨e, data, (env.reg_read s PCA9541_CONTROL).2, [Event.read PCA9541_CONTROL e]⟩ := by
  subst hread
  simp only [pca9541_arbitrate, he, if_true]

/-- The polling loop entered with fuel left in a state whose control read
fails returns the error at once. -/
theorem select_loop_read_error {σ : Type} (env : Env σ) (timeout fuel : Nat) (data : pca9541)
    (s : σ) (e : Int) (hread : (env.reg_read s PCA9541_CONTROL).1 = e) (he : e < 0) :
    pca9541_select_loop env timeout (fuel + 1) data s =
      some ⟨e, data, (env.reg_read s PCA9541_CONTROL).2, [Event.read PCA9541_CONTROL e]⟩ := by
  have hs := arbitrate_read_error env data s e hread he
  have hne : e ≠ 0 := by omega
  rw [pca9541_select_loop]
  simp only [hs, ne_eq, hne, not_false_eq_true, if_true, he]

/-- The polling loop that reaches, after `k` iterations, a state whose control
read fails returns the error there, whatever fuel is left beyond `k`. -/
theorem select_loop_reach_error {σ : Type} (env : Env σ) (timeout : Nat) (e : Int)
    (he : e < 0) (k : Nat) :
    ∀ (data : pca9541) (s : σ) (dk : pca9541) (sk : σ) (m : Nat),
      pca9541_loop_state env timeout k data s = some (dk, sk) →
      (env.reg_read sk PCA9541_CONTROL).1 = e →
      ∃ o pre, pca9541_select_loop env timeout (k + m + 1) data s = some o ∧ o.ret = e ∧
        o.trace = pre ++ [Event.read PCA9541_CONTROL e] ∧
        o.st = (env.reg_read sk PCA9541_CONTROL).2 ∧ o.data = dk := by
  induction k with
  | zero =>
    intro data s dk sk m hreach hread
    simp only [pca9541_loop_state, Option.some.injEq, Prod.mk.injEq] at hreach
    obtain ⟨rfl, rfl⟩ := hreach
    rw [Nat.zero_add, select_loop_read_error env timeout m data s e hread he]
    exact ⟨_, [], rfl, rfl, rfl, rfl, rfl⟩
  | succ k ih =>
    intro data s dk sk m hreach hread
    simp only [pca9541_loop_state] at hreach
    by_cases h1 : (pca9541_arbitrate env data s).ret ≠ 0
    · rw [if_pos h1] at hreach
      exact absurd hreach (by simp)
    · rw [if_neg h1] at hreach
      by_cases h2 : time_is_after_eq_jiffies (env.jiffies (select_delay env
          (pca9541_arbitrate env data s).data (pca9541_arbitrate env data s).st).1) timeout = true
      · rw [if_pos h2] at hreach
        obtain ⟨o, pre, r1, r2, r3, r4, r5⟩ := ih _ _ dk sk m hreach hread
        have hk : k + 1 + m + 1 = (k + m + 1) + 1 := by omega
        rw [hk, select_loop_continue env timeout (k + m + 1) data s (not_not.mp h1) h2, r1]
        refine ⟨_, (pca9541_arbitrate env data s).trace ++
          [(select_delay env (pca9541_arbitrate env data s).data
            (pca9541_arbitrate env data s).st).2, Event.timeout_check true] ++ pre,
          rfl, r2, ?_, r4, r5⟩
        simp only [r3, List.append_assoc]
      · rw [if_neg h2] at hreach
        exact absurd hreach (by simp)

/-- C2 (amended). Let the polling loop of `pca9541_select_chan` reach its
`(k + 1)`-th arbitration step, and let the control-register read of that step
fail with a transport error `e`. Then with any fuel above `k` the call returns:
it returns `e`, that read is its last event and the world is left as the read
left it. In general, a failed control read in the events of a call that
returned is its last event and its error is the value returned. The status of a
control-register write is never inspected: the call returns the same value,
leaves the same state and performs the same events as in the world where every
write reports success. -/
theorem C2_control_read_error_aborts {σ : Type} (env : Env σ) (HZ : Nat)
    (data : pca9541) (s : σ) (k : Nat) (dk : pca9541) (sk : σ) (e : Int)
    (hreach : pca9541_loop_state env ((env.jiffies s + ARB2_TIMEOUT HZ) % ULONG) k
      { data with arb_timeout := (env.jiffies s + ARB_TIMEOUT HZ) % ULONG } s = some (dk, sk))
    (hread : (env.reg_read sk PCA9541_CONTROL).1 = e) (he : e < 0) :
    (∀ fuel, k < fuel →
      ∃ o pre, pca9541_select_chan env HZ fuel data s = some o ∧ o.ret = e ∧
        o.trace = pre ++ [Event.read PCA9541_CONTROL e] ∧
        o.st = (env.reg_read sk PCA9541_CONTROL).2) ∧
    (∀ (fuel : Nat) (o : Step σ) (pre post : List Event) (e1 : Int),
      pca9541_select_chan env HZ fuel data s = some o → e1 < 0 →
      o.trace = pre ++ Event.read PCA9541_CONTROL e1 :: post → post = [] ∧ o.ret = e1) ∧
    (∀ fuel, (pca9541_select_chan (okWrites env) HZ fuel data s).map Step.obs =
      (pca9541_select_chan env HZ fuel data s).map Step.obs) := by
  refine ⟨?_, ?_, ?_⟩
  · intro fuel hf
    obtain ⟨m, rfl⟩ : ∃ m, fuel = k + m + 1 := ⟨fuel - k - 1, by omega⟩
    obtain ⟨o, pre, r1, r2, r3, r4, -⟩ :=
      select_loop_reach_error env _ e he k _ s dk sk m hreach hread
    exact ⟨o, pre, r1, r2, r3, r4⟩
  · intro fuel o pre post e1 h he1 ht
    exact select_loop_failed_read env _ fuel _ s o pre post e1 h he1 ht
  · intro fuel
    exact select_loop_okWrites env _ fuel _ s

/-- Witness for C2 (amended): the control read of the second step fails with
`-EIO`. -/
theorem C2_control_read_error_aborts_witness :
    pca9541_loop_state (scriptEnv 0)
        (((scriptEnv 0).jiffies ⟨[0, 0, -5], [], 0⟩ + ARB2_TIMEOUT 250) % ULONG) 1
        { (⟨0, 0⟩ : pca9541) with
          arb_timeout := ((scriptEnv 0).jiffies ⟨[0, 0, -5], [], 0⟩ + ARB_TIMEOUT 250) % ULONG }
        ⟨[0, 0, -5], [], 0⟩ = some (⟨50, 31⟩, ⟨[-5], [], 50⟩) ∧
    ((scriptEnv 0).reg_read ⟨[-5], [], 50⟩ PCA9541_CONTROL).1 = -5 ∧ (-5 : Int) < 0 ∧
    (∀ fuel, 1 < fuel →
      ∃ o pre, pca9541_select_chan (scriptEnv 0) 250 fuel ⟨0, 0⟩ ⟨[0, 0, -5], [], 0⟩ = some o ∧
        o.ret = -5 ∧ o.trace = pre ++ [Event.read PCA9541_CONTROL (-5)] ∧
        o.st = ((scriptEnv 0).reg_read ⟨[-5], [], 50⟩ PCA9541_CONTROL).2) :=
  ⟨by decide, by decide, by decide,
   (C2_control_read_error_aborts (scriptEnv 0) 250 ⟨0, 0⟩ ⟨[0, 0, -5], [], 0⟩ 1 ⟨50, 31⟩
     ⟨[-5], [], 50⟩ (-5) (by decide) (by decide) (by decide)).1⟩

end Pca9641
